import Mathlib

/-!
Verification of the banking ledger core of drmcastles/go_bank_api.

The embedding models the relational store as explicit lists of rows and the
service layer (internal/service/account.go, internal/service/credit.go) as
pure functions over that state.  Money amounts are rationals (the store
declares DECIMAL columns; the services compute in exact arithmetic here).
Store transactions are modelled by applying transaction-held writes only at
the commit point: a write issued through a transaction handle becomes
visible in the result state only when the operation commits, while writes
issued through the plain repository connection (the source passes no tx to
CreditRepository.CreateCredit, CreditRepository.CreatePaymentSchedule,
CreditRepository.UpdatePaymentStatus and CreditRepository.UpdateCreditStatus)
commit immediately and survive a later rollback.
-/

/-- Transaction kinds, from the TransactionType constants in internal/model. -/
inductive TransactionType
  | transfer
  | deposit
  | withdrawal
  | credit
  | creditPayment
  | cardPayment
  deriving DecidableEq

/-- A row of the accounts table (internal/model Account).  Timestamps are
    omitted; they carry no ledger content. -/
structure Account where
  id : Nat
  userId : Nat
  balance : ℚ
  currency : String
  deriving DecidableEq

/-- A row of the transactions table (internal/model Transaction). -/
structure Transaction where
  id : Nat
  accountId : Nat
  amount : ℚ
  transactionType : TransactionType
  referenceId : Option Nat
  deriving DecidableEq

/-- A row of the credits table (internal/model Credit).  Dates are ticks. -/
structure Credit where
  id : Nat
  accountId : Nat
  userId : Nat
  amount : ℚ
  interestRate : ℚ
  termMonths : Nat
  monthlyPayment : ℚ
  startDate : Nat
  status : String
  deriving DecidableEq

/-- A row of the payment_schedules table (internal/model PaymentSchedule). -/
structure PaymentSchedule where
  id : Nat
  creditId : Nat
  paymentNumber : Nat
  paymentDate : Nat
  amount : ℚ
  principal : ℚ
  interest : ℚ
  status : String
  paidAt : Option Nat
  deriving DecidableEq

/-- The four row families of the relational store. -/
structure DB where
  accounts : List Account
  transactions : List Transaction
  credits : List Credit
  schedules : List PaymentSchedule
  deriving DecidableEq

/-- Error kinds surfaced by the repository layer. -/
inductive RepoError
  | accountNotFound
  | checkViolation
  | creditNotFound
  | paymentNotFound
  deriving DecidableEq

/-- Error kinds surfaced by the service layer (the source wraps them as
    formatted error strings; only the kind matters here). -/
inductive ServiceError
  | nonPositiveAmount
  | notOwner
  | insufficientFunds
  | unsupportedCurrency
  | amountBelowRequired
  | repo (e : RepoError)
  deriving DecidableEq

/-- AccountRepository.GetByID: plain SELECT by id, no row lock. -/
def AccountRepository.GetByID (db : DB) (id : Nat) : Option Account :=
  db.accounts.find? fun a => decide (a.id = id)

/-- AccountRepository.GetByIDForUpdate: SELECT ... FOR UPDATE inside a store
    transaction.  Sequentially it returns the same row as GetByID; it is kept
    as a separate definition because the source distinguishes the two reads. -/
def AccountRepository.GetByIDForUpdate (db : DB) (id : Nat) : Option Account :=
  db.accounts.find? fun a => decide (a.id = id)

/-- The row image of the SQL UPDATE accounts SET balance = balance + delta
    WHERE id = matching. -/
def AccountRepository.applyDelta (accounts : List Account) (id : Nat) (delta : ℚ) :
    List Account :=
  accounts.map fun a => if a.id = id then { a with balance := a.balance + delta } else a

/-- AccountRepository.UpdateBalanceTx: UPDATE accounts SET balance = balance +
    delta WHERE id = matching, issued through a store transaction.  The Go body
    itself only reports accountNotFound when no row was affected; the accounts
    table carries CHECK (balance >= 0) (migrations/002_add_accounts.up.sql), so
    the UPDATE errors whenever an affected row would go negative. -/
def AccountRepository.UpdateBalanceTx (db : DB) (id : Nat) (delta : ℚ) :
    Except RepoError DB :=
  if ∀ a ∈ db.accounts, a.id ≠ id then
    .error .accountNotFound
  else if ∃ a ∈ db.accounts, a.id = id ∧ a.balance + delta < 0 then
    .error .checkViolation
  else
    .ok { db with accounts := AccountRepository.applyDelta db.accounts id delta }

/-- TransactionRepository.CreateTx: INSERT INTO transactions, issued through a
    store transaction.  The transactions table carries CHECK (amount > 0)
    (migrations, transactions table), so the INSERT errors on a non-positive
    amount. -/
def TransactionRepository.CreateTx (db : DB) (t : Transaction) : Except RepoError DB :=
  if t.amount ≤ 0 then .error .checkViolation
  else .ok { db with transactions := db.transactions ++ [t] }

/-- CreditRepository.CreateCredit: INSERT INTO credits through the plain
    repository connection (the source passes no transaction handle). -/
def CreditRepository.CreateCredit (db : DB) (c : Credit) : DB :=
  { db with credits := db.credits ++ [c] }

/-- CreditRepository.CreatePaymentSchedule: INSERT INTO payment_schedules
    through the plain repository connection. -/
def CreditRepository.CreatePaymentSchedule (db : DB) (p : PaymentSchedule) : DB :=
  { db with schedules := db.schedules ++ [p] }

/-- CreditRepository.GetCreditByID. -/
def CreditRepository.GetCreditByID (db : DB) (id : Nat) : Option Credit :=
  db.credits.find? fun c => decide (c.id = id)

/-- CreditRepository.GetPaymentByID: SELECT by id with no status filter. -/
def CreditRepository.GetPaymentByID (db : DB) (id : Nat) : Option PaymentSchedule :=
  db.schedules.find? fun p => decide (p.id = id)

/-- CreditRepository.GetPaymentSchedule: all rows of one credit. -/
def CreditRepository.GetPaymentSchedule (db : DB) (creditId : Nat) :
    List PaymentSchedule :=
  db.schedules.filter fun p => decide (p.creditId = creditId)

/-- CreditRepository.GetPendingPayments: rows with status = pending and
    payment_date at or before the given instant. -/
def CreditRepository.GetPendingPayments (db : DB) (now : Nat) : List PaymentSchedule :=
  db.schedules.filter fun p => decide (p.status = "pending") && decide (p.paymentDate ≤ now)

/-- CreditRepository.UpdatePaymentStatus: UPDATE payment_schedules SET status,
    paid_at WHERE id = matching, through the plain repository connection. -/
def CreditRepository.UpdatePaymentStatus (db : DB) (paymentId : Nat) (status : String)
    (paidAt : Option Nat) : DB :=
  { db with schedules := db.schedules.map fun p =>
      if p.id = paymentId then { p with status := status, paidAt := paidAt } else p }

/-- CreditRepository.UpdateCreditStatus: UPDATE credits SET status WHERE id =
    matching, through the plain repository connection. -/
def CreditRepository.UpdateCreditStatus (db : DB) (creditId : Nat) (status : String) : DB :=
  { db with credits := db.credits.map fun c =>
      if c.id = creditId then { c with status := status } else c }

/-- AccountService.Transfer (internal/service/account.go).  The generated
    uuids (reference id and the two entry ids) enter as parameters.  All four
    transaction-held writes are visible only in the committed result. -/
def AccountService.Transfer (db : DB) (fromAccountId toAccountId : Nat) (amount : ℚ)
    (userId : Nat) (transferId id1 id2 : Nat) : Option ServiceError × DB :=
  if amount ≤ 0 then (some .nonPositiveAmount, db) else
  match AccountRepository.GetByID db fromAccountId with
  | none => (some (.repo .accountNotFound), db)
  | some fromAccount =>
  if fromAccount.userId ≠ userId then (some .notOwner, db) else
  if fromAccount.balance < amount then (some .insufficientFunds, db) else
  match AccountRepository.GetByID db toAccountId with
  | none => (some (.repo .accountNotFound), db)
  | some toAccount =>
  if fromAccount.currency ≠ "RUB" ∨ toAccount.currency ≠ "RUB" then
    (some .unsupportedCurrency, db) else
  match AccountRepository.UpdateBalanceTx db fromAccountId (-amount) with
  | .error e => (some (.repo e), db)
  | .ok db1 =>
  match AccountRepository.UpdateBalanceTx db1 toAccountId amount with
  | .error e => (some (.repo e), db)
  | .ok db2 =>
  match TransactionRepository.CreateTx db2
      { id := id1, accountId := fromAccountId, amount := amount,
        transactionType := .transfer, referenceId := some transferId } with
  | .error e => (some (.repo e), db)
  | .ok db3 =>
  match TransactionRepository.CreateTx db3
      { id := id2, accountId := toAccountId, amount := amount,
        transactionType := .transfer, referenceId := some transferId } with
  | .error e => (some (.repo e), db)
  | .ok db4 => (none, db4)

/-- AccountService.Deposit (internal/service/account.go). -/
def AccountService.Deposit (db : DB) (accountId : Nat) (amount : ℚ) (userId : Nat)
    (entryId refId : Nat) : Option ServiceError × DB :=
  if amount ≤ 0 then (some .nonPositiveAmount, db) else
  match AccountRepository.GetByID db accountId with
  | none => (some (.repo .accountNotFound), db)
  | some account =>
  if account.userId ≠ userId then (some .notOwner, db) else
  if account.currency ≠ "RUB" then (some .unsupportedCurrency, db) else
  match AccountRepository.UpdateBalanceTx db accountId amount with
  | .error e => (some (.repo e), db)
  | .ok db1 =>
  match TransactionRepository.CreateTx db1
      { id := entryId, accountId := accountId, amount := amount,
        transactionType := .deposit, referenceId := some refId } with
  | .error e => (some (.repo e), db)
  | .ok db2 => (none, db2)

/-- AccountService.Withdraw (internal/service/account.go).  The funds check
    compares the amount with the balance obtained from the plain GetByID read
    taken before the store transaction opens. -/
def AccountService.Withdraw (db : DB) (accountId : Nat) (amount : ℚ) (userId : Nat)
    (entryId refId : Nat) : Option ServiceError × DB :=
  if amount ≤ 0 then (some .nonPositiveAmount, db) else
  match AccountRepository.GetByID db accountId with
  | none => (some (.repo .accountNotFound), db)
  | some account =>
  if account.userId ≠ userId then (some .notOwner, db) else
  if account.balance < amount then (some .insufficientFunds, db) else
  if account.currency ≠ "RUB" then (some .unsupportedCurrency, db) else
  match AccountRepository.UpdateBalanceTx db accountId (-amount) with
  | .error e => (some (.repo e), db)
  | .ok db1 =>
  match TransactionRepository.CreateTx db1
      { id := entryId, accountId := accountId, amount := amount,
        transactionType := .withdrawal, referenceId := some refId } with
  | .error e => (some (.repo e), db)
  | .ok db2 => (none, db2)

/-- CreateCreditRequest (internal/model): account, principal, term. -/
structure CreateCreditRequest where
  accountId : Nat
  amount : ℚ
  termMonths : Nat
  deriving DecidableEq

/-- CreditService.CalculateMonthlyPayment: the annuity payment formula, in
    exact arithmetic. -/
def CreditService.CalculateMonthlyPayment (amount : ℚ) (termMonths : Nat)
    (interestRate : ℚ) : ℚ :=
  let monthlyRate := interestRate / 12 / 100
  let annuityCoeff := (monthlyRate * (1 + monthlyRate) ^ termMonths) /
    ((1 + monthlyRate) ^ termMonths - 1)
  amount * annuityCoeff

/-- The loop body of CreditService.generatePaymentSchedule: month i of
    credit.termMonths, carrying the remaining principal; the fuel argument
    counts the iterations still to run.  On the final month the principal
    component is forced to the remaining principal, while the row amount stays
    credit.monthlyPayment in every row. -/
def CreditService.scheduleRowsAux (credit : Credit) (idBase : Nat) (monthlyRate : ℚ) :
    Nat → ℚ → Nat → List PaymentSchedule
  | _, _, 0 => []
  | i, remainingPrincipal, fuel + 1 =>
    let interest := remainingPrincipal * monthlyRate
    let principal := if i = credit.termMonths then remainingPrincipal
      else credit.monthlyPayment - interest
    { id := idBase + i, creditId := credit.id, paymentNumber := i,
      paymentDate := credit.startDate + i, amount := credit.monthlyPayment,
      principal := principal, interest := interest, status := "pending",
      paidAt := none } ::
      CreditService.scheduleRowsAux credit idBase monthlyRate (i + 1)
        (remainingPrincipal - principal) fuel

/-- CreditService.generatePaymentSchedule as a pure row generator: months
    1..termMonths starting from the full principal. -/
def CreditService.generatePaymentSchedule (credit : Credit) (idBase : Nat) :
    List PaymentSchedule :=
  CreditService.scheduleRowsAux credit idBase (credit.interestRate / 12 / 100)
    1 credit.amount credit.termMonths

/-- CreditService.CreateCredit (internal/service/credit.go).  The resolved
    central-bank rate enters as a parameter (the source falls back to 22 when
    the rate source fails); generated uuids enter as parameters.  The balance
    delta and the ledger entry are transaction-held writes; the credit row and
    the schedule rows are written through the plain repository connection and
    commit immediately, so they survive a rollback of the store transaction. -/
def CreditService.CreateCredit (db : DB) (req : CreateCreditRequest) (userId : Nat)
    (rate : ℚ) (now : Nat) (creditId idBase entryId : Nat) : Option ServiceError × DB :=
  match AccountRepository.GetByID db req.accountId with
  | none => (some (.repo .accountNotFound), db)
  | some account =>
  if account.userId ≠ userId then (some .notOwner, db) else
  let interestRate := rate + 5
  let monthlyPayment := CreditService.CalculateMonthlyPayment req.amount req.termMonths
    interestRate
  let credit : Credit :=
    { id := creditId, accountId := req.accountId, userId := userId,
      amount := req.amount, interestRate := interestRate, termMonths := req.termMonths,
      monthlyPayment := monthlyPayment, startDate := now, status := "active" }
  match AccountRepository.UpdateBalanceTx db req.accountId req.amount with
  | .error e => (some (.repo e), db)
  | .ok dbBal =>
  let rows := CreditService.generatePaymentSchedule credit idBase
  let commitNonTx : DB → DB := fun d =>
    rows.foldl CreditRepository.CreatePaymentSchedule (CreditRepository.CreateCredit d credit)
  match TransactionRepository.CreateTx (commitNonTx dbBal)
      { id := entryId, accountId := req.accountId, amount := req.amount,
        transactionType := .credit, referenceId := some creditId } with
  | .error e => (some (.repo e), commitNonTx db)
  | .ok dbDone => (none, dbDone)

/-- CreditService.processPayment (the settlement algorithm shared by the
    scheduler and the manual path).  The status writes go through the plain
    repository connection and commit immediately; the balance debit and the
    ledger entry are transaction-held and commit together at the end. -/
def CreditService.processPayment (db : DB) (now : Nat) (payment : PaymentSchedule)
    (entryId : Nat) : Option ServiceError × DB :=
  match CreditRepository.GetCreditByID db payment.creditId with
  | none => (some (.repo .creditNotFound), db)
  | some credit =>
  match AccountRepository.GetByIDForUpdate db credit.accountId with
  | none => (some (.repo .accountNotFound), db)
  | some account =>
  let sufficient := payment.amount ≤ account.balance
  let status := if sufficient then "paid" else "overdue"
  let paidAt := if sufficient then some now else none
  let penalty : ℚ := if sufficient then 0 else payment.amount * (1 / 10)
  let db1 := CreditRepository.UpdatePaymentStatus db payment.id status paidAt
  let db2 :=
    if sufficient then
      if (CreditRepository.GetPaymentSchedule db1 credit.id).all
          (fun p => decide (p.status = "paid") || decide (p.id = payment.id)) then
        CreditRepository.UpdateCreditStatus db1 credit.id "paid"
      else db1
    else db1
  match (if sufficient then
      AccountRepository.UpdateBalanceTx db2 account.id (-payment.amount)
    else Except.ok db2) with
  | .error e => (some (.repo e), db2)
  | .ok db3 =>
  match TransactionRepository.CreateTx db3
      { id := entryId, accountId := account.id, amount := payment.amount + penalty,
        transactionType := .creditPayment, referenceId := some payment.id } with
  | .error e => (some (.repo e), db2)
  | .ok db4 => (none, db4)

/-- The loop of CreditService.ProcessPayments over the due set: a failure on
    one entry does not stop the batch.  Entry ids are drawn from a counter. -/
def CreditService.processList (now : Nat) : DB → List PaymentSchedule → Nat → DB
  | db, [], _ => db
  | db, payment :: rest, entryId =>
    CreditService.processList now (CreditService.processPayment db now payment entryId).2
      rest (entryId + 1)

/-- CreditService.ProcessPayments: one settlement-scheduler run at the given
    instant. -/
def CreditService.ProcessPayments (db : DB) (now : Nat) (entryIdBase : Nat) : DB :=
  CreditService.processList now db (CreditRepository.GetPendingPayments db now) entryIdBase

/-- CreditService.ProcessPayment: the manual payment entry point.  It loads
    the schedule row by id with no status filter, rejects a submitted amount
    below the row amount, and otherwise routes the row through the settlement
    algorithm; the submitted amount is not used further. -/
def CreditService.ProcessPayment (db : DB) (now : Nat) (paymentId : Nat) (amount : ℚ)
    (entryId : Nat) : Option ServiceError × DB :=
  match CreditRepository.GetPaymentByID db paymentId with
  | none => (some (.repo .paymentNotFound), db)
  | some payment =>
  if amount < payment.amount then (some .amountBelowRequired, db)
  else CreditService.processPayment db now payment entryId

/-- Outcome of one withdrawal attempt in the race model. -/
inductive WithdrawOutcome
  | ok
  | insufficientFunds
  | storeRejected
  deriving DecidableEq

/-- One in-flight Withdraw call racing on a single account: the amount, the
    balance observed by the plain GetByID read, and the final outcome. -/
structure WithdrawProc where
  amount : ℚ
  observed : Option ℚ
  result : Option WithdrawOutcome
  deriving DecidableEq

/-- Two concurrent Withdraw calls against one account row. -/
structure RaceState where
  balance : ℚ
  entries : Nat
  p1 : WithdrawProc
  p2 : WithdrawProc
  deriving DecidableEq

/-- One scheduler step of the source's Withdraw (internal/service/account.go):
    the first step of a process is the plain unlocked GetByID read taken before
    the store transaction opens; the second step runs the funds check against
    that observed balance and then the transactional UpdateBalanceTx, whose
    CHECK (balance >= 0) rejects the debit against the current row value. -/
def withdrawStep (s : RaceState) (first : Bool) : RaceState :=
  let p := if first then s.p1 else s.p2
  match p.observed, p.result with
  | none, none =>
    let p := { p with observed := some s.balance }
    if first then { s with p1 := p } else { s with p2 := p }
  | some observed, none =>
    if observed < p.amount then
      let p := { p with result := some .insufficientFunds }
      if first then { s with p1 := p } else { s with p2 := p }
    else if s.balance - p.amount < 0 then
      let p := { p with result := some .storeRejected }
      if first then { s with p1 := p } else { s with p2 := p }
    else
      let p := { p with result := some .ok }
      if first then { s with balance := s.balance - p.amount, entries := s.entries + 1, p1 := p }
      else { s with balance := s.balance - p.amount, entries := s.entries + 1, p2 := p }
  | _, some _ => s

/-- Run the code race model under a schedule of process turns. -/
def withdrawRun (s : RaceState) (schedule : List Bool) : RaceState :=
  schedule.foldl withdrawStep s

/-- Modelled from the spec: the claimed Withdraw, whose funds check reads the
    row under lock inside the store transaction, so observation, check and
    debit form one atomic step. -/
def withdrawStepLocked (s : RaceState) (first : Bool) : RaceState :=
  let p := if first then s.p1 else s.p2
  match p.result with
  | none =>
    if s.balance < p.amount then
      let p := { p with observed := some s.balance, result := some .insufficientFunds }
      if first then { s with p1 := p } else { s with p2 := p }
    else
      let p := { p with observed := some s.balance, result := some .ok }
      if first then { s with balance := s.balance - p.amount, entries := s.entries + 1, p1 := p }
      else { s with balance := s.balance - p.amount, entries := s.entries + 1, p2 := p }
  | some _ => s

/-- Run the spec-worded locked race model under a schedule. -/
def withdrawRunLocked (s : RaceState) (schedule : List Bool) : RaceState :=
  schedule.foldl withdrawStepLocked s

/-- The balance-mutating operations of the core, with all generated ids as
    explicit data. -/
inductive LedgerOp
  | deposit (accountId : Nat) (amount : ℚ) (userId entryId refId : Nat)
  | withdraw (accountId : Nat) (amount : ℚ) (userId entryId refId : Nat)
  | transfer (fromId toId : Nat) (amount : ℚ) (userId transferId id1 id2 : Nat)
  | issueCredit (req : CreateCreditRequest) (userId : Nat) (rate : ℚ)
      (now creditId idBase entryId : Nat)
  | settle (now entryIdBase : Nat)
  | payManual (paymentId : Nat) (amount : ℚ) (now entryId : Nat)

/-- The committed state an operation leaves behind, error or not. -/
def applyOp (db : DB) : LedgerOp → DB
  | .deposit accountId amount userId entryId refId =>
      (AccountService.Deposit db accountId amount userId entryId refId).2
  | .withdraw accountId amount userId entryId refId =>
      (AccountService.Withdraw db accountId amount userId entryId refId).2
  | .transfer fromId toId amount userId transferId id1 id2 =>
      (AccountService.Transfer db fromId toId amount userId transferId id1 id2).2
  | .issueCredit req userId rate now creditId idBase entryId =>
      (CreditService.CreateCredit db req userId rate now creditId idBase entryId).2
  | .settle now entryIdBase =>
      CreditService.ProcessPayments db now entryIdBase
  | .payManual paymentId amount now entryId =>
      (CreditService.ProcessPayment db now paymentId amount entryId).2

/-- A whole history of ledger operations. -/
def runOps (db : DB) (ops : List LedgerOp) : DB :=
  ops.foldl applyOp db

theorem scheduleRowsAux_length (credit : Credit) (idBase : Nat) (r : ℚ) :
    ∀ (fuel i : Nat) (rem : ℚ),
      (CreditService.scheduleRowsAux credit idBase r i rem fuel).length = fuel := by
  intro fuel
  induction fuel with
  | zero => intro i rem; rfl
  | succ n ih =>
    intro i rem
    simp only [CreditService.scheduleRowsAux, List.length_cons, ih]

theorem scheduleRowsAux_principal_sum (credit : Credit) (idBase : Nat) (r : ℚ) :
    ∀ (fuel i : Nat) (rem : ℚ), 1 ≤ fuel → i + fuel = credit.termMonths + 1 →
      ((CreditService.scheduleRowsAux credit idBase r i rem fuel).map
        PaymentSchedule.principal).sum = rem := by
  intro fuel
  induction fuel with
  | zero => intro i rem h; omega
  | succ n ih =>
    intro i rem _ hsum
    by_cases hi : i = credit.termMonths
    · have hn : n = 0 := by omega
      subst hn
      simp only [CreditService.scheduleRowsAux, List.map_cons, List.map_nil,
        List.sum_cons, List.sum_nil, if_pos hi, add_zero]
    · have hn : 1 ≤ n := by omega
      simp only [CreditService.scheduleRowsAux, List.map_cons, List.sum_cons, if_neg hi]
      rw [ih (i + 1) (rem - (credit.monthlyPayment - rem * r)) hn (by omega)]
      ring

theorem scheduleRowsAux_row_shape (credit : Credit) (idBase : Nat) (r : ℚ) :
    ∀ (fuel i : Nat) (rem : ℚ),
      ∀ row ∈ CreditService.scheduleRowsAux credit idBase r i rem fuel,
        row.amount = credit.monthlyPayment ∧
        (row.paymentNumber ≠ credit.termMonths →
          row.principal + row.interest = row.amount) := by
  intro fuel
  induction fuel with
  | zero => intro i rem row hrow; simp [CreditService.scheduleRowsAux] at hrow
  | succ n ih =>
    intro i rem row hrow
    simp only [CreditService.scheduleRowsAux, List.mem_cons] at hrow
    rcases hrow with hrow | hrow
    · subst hrow
      refine ⟨rfl, fun hne => ?_⟩
      simp only [if_neg hne]
      ring
    · exact ih (i + 1) _ row hrow

/-- C6: for a credit of principal P and term T in the supported range, the
    generated schedule has exactly T rows, the principal components sum to P
    exactly, and the final row's principal component equals the remaining
    principal before that row (the principal not consumed by the earlier
    rows). -/
theorem C6_amortization_exactness (credit : Credit) (idBase : Nat)
    (hlo : 6 ≤ credit.termMonths) (hhi : credit.termMonths ≤ 60) :
    (CreditService.generatePaymentSchedule credit idBase).length = credit.termMonths ∧
    ((CreditService.generatePaymentSchedule credit idBase).map
      PaymentSchedule.principal).sum = credit.amount ∧
    (CreditService.generatePaymentSchedule credit idBase).getLast?.map
        PaymentSchedule.principal =
      some (credit.amount -
        ((CreditService.generatePaymentSchedule credit idBase).dropLast.map
          PaymentSchedule.principal).sum) := by
  have hlen : (CreditService.generatePaymentSchedule credit idBase).length =
      credit.termMonths := scheduleRowsAux_length credit idBase _ _ 1 credit.amount
  have hsum : ((CreditService.generatePaymentSchedule credit idBase).map
      PaymentSchedule.principal).sum = credit.amount :=
    scheduleRowsAux_principal_sum credit idBase _ credit.termMonths 1 credit.amount
      (by omega) (by omega)
  refine ⟨hlen, hsum, ?_⟩
  have hne : CreditService.generatePaymentSchedule credit idBase ≠ [] := by
    intro h
    rw [h] at hlen
    simp at hlen
    omega
  rw [List.getLast?_eq_getLast _ hne]
  have hsplit := List.dropLast_append_getLast hne
  have := congrArg (fun l => (l.map PaymentSchedule.principal).sum) hsplit
  simp only [List.map_append, List.sum_append, List.map_cons, List.map_nil,
    List.sum_cons, List.sum_nil, add_zero] at this
  rw [hsum] at this
  rw [Option.map_some']
  rw [← this]
  ring_nf

theorem C6_amortization_exactness_witness :
    6 ≤ (12 : Nat) ∧ (12 : Nat) ≤ 60 ∧
    ((CreditService.generatePaymentSchedule
      { id := 1, accountId := 1, userId := 7, amount := 100000, interestRate := 27,
        termMonths := 12,
        monthlyPayment := CreditService.CalculateMonthlyPayment 100000 12 27,
        startDate := 0, status := "active" } 100).map PaymentSchedule.principal).sum
      = 100000 := by
  refine ⟨by norm_num, by norm_num, ?_⟩
  exact (C6_amortization_exactness
    { id := 1, accountId := 1, userId := 7, amount := 100000, interestRate := 27,
      termMonths := 12,
      monthlyPayment := CreditService.CalculateMonthlyPayment 100000 12 27,
      startDate := 0, status := "active" } 100 (by norm_num) (by norm_num)).2.1

/-- C7 (amended): every generated row satisfies principal + interest = amount
    except possibly the final installment; the row amount is the fixed annuity
    monthly payment in every row, the final row included — the source never
    recomputes the final amount after forcing the principal component. -/
theorem C7_row_amount_invariant (credit : Credit) (idBase : Nat) :
    (∀ row ∈ CreditService.generatePaymentSchedule credit idBase,
      row.paymentNumber ≠ credit.termMonths →
        row.principal + row.interest = row.amount) ∧
    (∀ row ∈ CreditService.generatePaymentSchedule credit idBase,
      row.amount = credit.monthlyPayment) := by
  constructor
  · intro row hrow
    exact (scheduleRowsAux_row_shape credit idBase _ _ 1 credit.amount row hrow).2
  · intro row hrow
    exact (scheduleRowsAux_row_shape credit idBase _ _ 1 credit.amount row hrow).1

/-- C7 counterexample: for principal 100, annual rate 12, term 2 and annuity
    amount 60, the final generated row has principal 41 and interest 41/100
    while its amount stays 60, so principal + interest differs from amount on
    the final installment: the claimed recomputation of the final amount does
    not happen. -/
theorem C7_counterexample :
    ∃ row ∈ CreditService.generatePaymentSchedule
      { id := 9, accountId := 1, userId := 7, amount := 100, interestRate := 12,
        termMonths := 2, monthlyPayment := 60, startDate := 0, status := "active" } 50,
      row.principal + row.interest ≠ row.amount := by
  have h : CreditService.generatePaymentSchedule
      { id := 9, accountId := 1, userId := 7, amount := 100, interestRate := 12,
        termMonths := 2, monthlyPayment := 60, startDate := 0, status := "active" } 50 =
      [{ id := 51, creditId := 9, paymentNumber := 1, paymentDate := 1, amount := 60,
         principal := 59, interest := 1, status := "pending", paidAt := none },
       { id := 52, creditId := 9, paymentNumber := 2, paymentDate := 2, amount := 60,
         principal := 41, interest := 41/100, status := "pending", paidAt := none }] := by
    norm_num [CreditService.generatePaymentSchedule, CreditService.scheduleRowsAux,
      PaymentSchedule.mk.injEq]
  rw [h]
  exact ⟨
    { id := 52, creditId := 9, paymentNumber := 2, paymentDate := 2, amount := 60,
      principal := 41, interest := 41/100, status := "pending", paidAt := none },
    by simp, by norm_num⟩

theorem UpdateBalanceTx_ok_shape (db db' : DB) (id : Nat) (delta : ℚ)
    (h : AccountRepository.UpdateBalanceTx db id delta = .ok db') :
    db' = { db with accounts := AccountRepository.applyDelta db.accounts id delta } := by
  unfold AccountRepository.UpdateBalanceTx at h
  split at h
  · exact Except.noConfusion h
  · split at h
    · exact Except.noConfusion h
    · injection h with h
      exact h.symm

theorem CreateTx_ok_shape (db db' : DB) (t : Transaction)
    (h : TransactionRepository.CreateTx db t = .ok db') :
    db' = { db with transactions := db.transactions ++ [t] } := by
  unfold TransactionRepository.CreateTx at h
  split at h
  · exact Except.noConfusion h
  · injection h with h
    exact h.symm

theorem applyDelta_row_id (a : Account) (j : Nat) (delta : ℚ) :
    (if a.id = j then { a with balance := a.balance + delta } else a).id = a.id := by
  split <;> rfl

theorem find?_applyDelta (accounts : List Account) (i j : Nat) (delta : ℚ) :
    (AccountRepository.applyDelta accounts j delta).find? (fun a => decide (a.id = i)) =
      (accounts.find? (fun a => decide (a.id = i))).map
        (fun a => if a.id = j then { a with balance := a.balance + delta } else a) := by
  unfold AccountRepository.applyDelta
  induction accounts with
  | nil => rfl
  | cons a rest ih =>
    simp only [List.map_cons, List.find?_cons, applyDelta_row_id]
    by_cases h : a.id = i
    · simp [h]
    · simp [h, ih]

theorem GetByID_applyDelta (db : DB) (accounts : List Account) (i j : Nat) (delta : ℚ) :
    AccountRepository.GetByID { db with accounts := AccountRepository.applyDelta accounts j delta } i =
      (accounts.find? (fun a => decide (a.id = i))).map
        (fun a => if a.id = j then { a with balance := a.balance + delta } else a) := by
  unfold AccountRepository.GetByID
  exact find?_applyDelta accounts i j delta

/-- C1: a committed Transfer of amount A from account X to a distinct account
    Y debits X by exactly A, credits Y by exactly A, and appends exactly two
    transfer-kind ledger entries sharing the freshly generated reference id,
    all in the one committed state; no other row family changes. -/
theorem C1_transfer_conservation (db db' : DB) (fromAccountId toAccountId : Nat)
    (amount : ℚ) (userId transferId id1 id2 : Nat) (fromAccount toAccount : Account)
    (hne : fromAccountId ≠ toAccountId)
    (hfrom : AccountRepository.GetByID db fromAccountId = some fromAccount)
    (hto : AccountRepository.GetByID db toAccountId = some toAccount)
    (hfresh : ∀ t ∈ db.transactions, t.referenceId ≠ some transferId)
    (hok : AccountService.Transfer db fromAccountId toAccountId amount userId
      transferId id1 id2 = (none, db')) :
    AccountRepository.GetByID db' fromAccountId =
      some { fromAccount with balance := fromAccount.balance - amount } ∧
    AccountRepository.GetByID db' toAccountId =
      some { toAccount with balance := toAccount.balance + amount } ∧
    db'.transactions = db.transactions ++
      [{ id := id1, accountId := fromAccountId, amount := amount,
         transactionType := .transfer, referenceId := some transferId },
       { id := id2, accountId := toAccountId, amount := amount,
         transactionType := .transfer, referenceId := some transferId }] ∧
    (db'.transactions.filter fun t => decide (t.referenceId = some transferId)).length = 2 ∧
    db'.credits = db.credits ∧ db'.schedules = db.schedules := by
  unfold AccountService.Transfer at hok
  split at hok
  · simp at hok
  split at hok
  · rename_i heq
    rw [hfrom] at heq
    exact Option.noConfusion heq
  rename_i account heq
  rw [hfrom] at heq
  injection heq with heq
  subst heq
  split at hok
  · simp at hok
  split at hok
  · simp at hok
  split at hok
  · rename_i heq2
    rw [hto] at heq2
    exact Option.noConfusion heq2
  rename_i toAcc heq2
  rw [hto] at heq2
  injection heq2 with heq2
  subst heq2
  split at hok
  · simp at hok
  split at hok
  · simp at hok
  rename_i db1 hupd1
  split at hok
  · simp at hok
  rename_i db2 hupd2
  split at hok
  · simp at hok
  rename_i db3 hins1
  split at hok
  · simp at hok
  rename_i db4 hins2
  simp only [Prod.mk.injEq] at hok
  have hdb1 := UpdateBalanceTx_ok_shape _ _ _ _ hupd1
  subst hdb1
  have hdb2 := UpdateBalanceTx_ok_shape _ _ _ _ hupd2
  subst hdb2
  have hdb3 := CreateTx_ok_shape _ _ _ hins1
  subst hdb3
  have hdb4 := CreateTx_ok_shape _ _ _ hins2
  subst hdb4
  have hdb' := hok.2
  subst hdb'
  have hfromId : fromAccount.id = fromAccountId := by
    have := List.find?_some hfrom
    simpa using this
  have htoId : toAccount.id = toAccountId := by
    have := List.find?_some hto
    simpa using this
  have hfrom' : (db.accounts.find? fun a => decide (a.id = fromAccountId)) =
      some fromAccount := hfrom
  have hto' : (db.accounts.find? fun a => decide (a.id = toAccountId)) =
      some toAccount := hto
  refine ⟨?_, ?_, ?_, ?_, rfl, rfl⟩
  · show ((AccountRepository.applyDelta (AccountRepository.applyDelta db.accounts
        fromAccountId (-amount)) toAccountId amount).find?
        fun a => decide (a.id = fromAccountId)) = _
    rw [find?_applyDelta, find?_applyDelta, hfrom']
    simp only [Option.map_some']
    rw [if_pos hfromId]
    dsimp only
    rw [if_neg (show ¬fromAccount.id = toAccountId from by rw [hfromId]; exact hne)]
    simp only [Option.some.injEq]
    rw [show fromAccount.balance + -amount = fromAccount.balance - amount from by ring]
  · show ((AccountRepository.applyDelta (AccountRepository.applyDelta db.accounts
        fromAccountId (-amount)) toAccountId amount).find?
        fun a => decide (a.id = toAccountId)) = _
    rw [find?_applyDelta, find?_applyDelta, hto']
    simp only [Option.map_some']
    rw [if_neg (show ¬toAccount.id = fromAccountId from by rw [htoId]; exact hne.symm)]
    rw [if_pos htoId]
  · show db.transactions ++ [_] ++ [_] = _
    simp
  · show (List.filter _ (db.transactions ++ [_] ++ [_])).length = 2
    simp only [List.filter_append]
    rw [List.filter_eq_nil_iff.mpr (by intro t ht; simpa using hfresh t ht)]
    simp

theorem C1_transfer_conservation_witness :
    (1 : Nat) ≠ 2 ∧
    AccountService.Transfer
      { accounts := [{ id := 1, userId := 7, balance := 100, currency := "RUB" },
                     { id := 2, userId := 8, balance := 50, currency := "RUB" }],
        transactions := [], credits := [], schedules := [] } 1 2 30 7 500 501 502 =
      (none,
        { accounts := [{ id := 1, userId := 7, balance := 70, currency := "RUB" },
                       { id := 2, userId := 8, balance := 80, currency := "RUB" }],
          transactions := [
            { id := 501, accountId := 1, amount := 30,
              transactionType := .transfer, referenceId := some 500 },
            { id := 502, accountId := 2, amount := 30,
              transactionType := .transfer, referenceId := some 500 }],
          credits := [], schedules := [] }) ∧
    AccountRepository.GetByID
      { accounts := [{ id := 1, userId := 7, balance := 70, currency := "RUB" },
                     { id := 2, userId := 8, balance := 80, currency := "RUB" }],
        transactions := [
          { id := 501, accountId := 1, amount := 30,
            transactionType := .transfer, referenceId := some 500 },
          { id := 502, accountId := 2, amount := 30,
            transactionType := .transfer, referenceId := some 500 }],
        credits := [], schedules := [] } 1 =
      some { id := 1, userId := 7, balance := 100 - 30, currency := "RUB" } := by
  have hok : AccountService.Transfer
      { accounts := [{ id := 1, userId := 7, balance := 100, currency := "RUB" },
                     { id := 2, userId := 8, balance := 50, currency := "RUB" }],
        transactions := [], credits := [], schedules := [] } 1 2 30 7 500 501 502 =
      (none,
        { accounts := [{ id := 1, userId := 7, balance := 70, currency := "RUB" },
                       { id := 2, userId := 8, balance := 80, currency := "RUB" }],
          transactions := [
            { id := 501, accountId := 1, amount := 30,
              transactionType := .transfer, referenceId := some 500 },
            { id := 502, accountId := 2, amount := 30,
              transactionType := .transfer, referenceId := some 500 }],
          credits := [], schedules := [] }) := by
    norm_num [AccountService.Transfer, AccountRepository.GetByID,
      AccountRepository.UpdateBalanceTx, AccountRepository.applyDelta,
      TransactionRepository.CreateTx, List.find?, Prod.mk.injEq, DB.mk.injEq,
      Account.mk.injEq, Transaction.mk.injEq]
  refine ⟨by norm_num, hok, ?_⟩
  exact (C1_transfer_conservation _ _ 1 2 30 7 500 501 502
    { id := 1, userId := 7, balance := 100, currency := "RUB" }
    { id := 2, userId := 8, balance := 50, currency := "RUB" }
    (by norm_num)
    (by norm_num [AccountRepository.GetByID, List.find?])
    (by norm_num [AccountRepository.GetByID, List.find?])
    (by simp) hok).1

theorem find?_mem_unique {l : List Account} {i : Nat} {a b : Account}
    (hfind : (l.find? fun x => decide (x.id = i)) = some a)
    (hnd : (l.map Account.id).Nodup) (hb : b ∈ l) (hbi : b.id = a.id) : b = a := by
  have ham : a ∈ l := List.mem_of_find?_eq_some hfind
  exact List.inj_on_of_nodup_map hnd hb ham (by rw [hbi])

theorem UpdateBalanceTx_components (d : DB) (i : Nat) (delta : ℚ)
    (h1 : ¬∀ a ∈ d.accounts, a.id ≠ i)
    (h2 : ¬∃ a ∈ d.accounts, a.id = i ∧ a.balance + delta < 0) :
    AccountRepository.UpdateBalanceTx d i delta =
      .ok { d with accounts := AccountRepository.applyDelta d.accounts i delta } := by
  simp only [AccountRepository.UpdateBalanceTx, if_neg h1, if_neg h2]

theorem processPayment_insufficient (db : DB) (now : Nat) (payment : PaymentSchedule)
    (entryId : Nat) (credit : Credit) (account : Account)
    (hcredit : CreditRepository.GetCreditByID db payment.creditId = some credit)
    (haccount : AccountRepository.GetByIDForUpdate db credit.accountId = some account)
    (hamount : 0 < payment.amount)
    (hins : account.balance < payment.amount) :
    CreditService.processPayment db now payment entryId =
      (none,
        { accounts := db.accounts,
          transactions := db.transactions ++
            [{ id := entryId, accountId := account.id,
               amount := payment.amount + payment.amount * (1 / 10),
               transactionType := .creditPayment, referenceId := some payment.id }],
          credits := db.credits,
          schedules := db.schedules.map fun p =>
            if p.id = payment.id then { p with status := "overdue", paidAt := none }
            else p }) := by
  have hpen : ¬payment.amount + payment.amount * (1 / 10) ≤ 0 := by
    have : 0 < payment.amount * (1 / 10) := by positivity
    push_neg
    linarith
  simp only [CreditService.processPayment, hcredit, haccount,
    CreditRepository.UpdatePaymentStatus, TransactionRepository.CreateTx,
    if_neg (not_le.mpr hins), if_neg hpen]

theorem processPayment_sufficient (db : DB) (now : Nat) (payment : PaymentSchedule)
    (entryId : Nat) (credit : Credit) (account : Account)
    (hcredit : CreditRepository.GetCreditByID db payment.creditId = some credit)
    (haccount : AccountRepository.GetByIDForUpdate db credit.accountId = some account)
    (hnd : (db.accounts.map Account.id).Nodup)
    (hamount : 0 < payment.amount)
    (hsuf : payment.amount ≤ account.balance) :
    (CreditService.processPayment db now payment entryId).1 = none ∧
    (CreditService.processPayment db now payment entryId).2.accounts =
      AccountRepository.applyDelta db.accounts account.id (-payment.amount) ∧
    (CreditService.processPayment db now payment entryId).2.transactions =
      db.transactions ++
        [{ id := entryId, accountId := account.id, amount := payment.amount + 0,
           transactionType := .creditPayment, referenceId := some payment.id }] ∧
    (CreditService.processPayment db now payment entryId).2.schedules =
      db.schedules.map fun p =>
        if p.id = payment.id then { p with status := "paid", paidAt := some now }
        else p := by
  have hpen : ¬payment.amount + (0 : ℚ) ≤ 0 := by
    push_neg
    linarith
  have hmem : account ∈ db.accounts := List.mem_of_find?_eq_some haccount
  have h1 : ¬∀ a ∈ db.accounts, a.id ≠ account.id := fun hall => hall account hmem rfl
  have h2 : ¬∃ a ∈ db.accounts, a.id = account.id ∧ a.balance + -payment.amount < 0 := by
    rintro ⟨a, hal, hai, habal⟩
    have ha : a = account := find?_mem_unique haccount hnd hal hai
    subst ha
    linarith
  simp only [CreditService.processPayment, hcredit, haccount, if_pos hsuf]
  by_cases hall : ((CreditRepository.GetPaymentSchedule
      (CreditRepository.UpdatePaymentStatus db payment.id "paid" (some now))
      credit.id).all fun p => decide (p.status = "paid") || decide (p.id = payment.id)) = true
  · rw [if_pos hall, UpdateBalanceTx_components
      (CreditRepository.UpdateCreditStatus
        (CreditRepository.UpdatePaymentStatus db payment.id "paid" (some now))
        credit.id "paid") account.id (-payment.amount) h1 h2]
    simp only [TransactionRepository.CreateTx, if_neg hpen]
    exact ⟨trivial, rfl, rfl, rfl⟩
  · rw [if_neg hall, UpdateBalanceTx_components
      (CreditRepository.UpdatePaymentStatus db payment.id "paid" (some now))
      account.id (-payment.amount) h1 h2]
    simp only [TransactionRepository.CreateTx, if_neg hpen]
    exact ⟨trivial, rfl, rfl, rfl⟩

/-- C8: when settlement finds the balance insufficient for a due installment
    it marks the row overdue, records a penalty of 10 percent of the due
    amount inside the single credit-payment entry (written for amount plus
    penalty), and leaves every account balance untouched; on the sufficient
    path the account is debited by the amount and the single entry is written
    for the amount with zero penalty. -/
theorem C8_settlement_penalty_frame (db : DB) (now : Nat) (payment : PaymentSchedule)
    (entryId : Nat) (credit : Credit) (account : Account)
    (hcredit : CreditRepository.GetCreditByID db payment.creditId = some credit)
    (haccount : AccountRepository.GetByIDForUpdate db credit.accountId = some account)
    (hnd : (db.accounts.map Account.id).Nodup)
    (hamount : 0 < payment.amount) :
    (account.balance < payment.amount →
      CreditService.processPayment db now payment entryId =
        (none,
          { accounts := db.accounts,
            transactions := db.transactions ++
              [{ id := entryId, accountId := account.id,
                 amount := payment.amount + payment.amount * (1 / 10),
                 transactionType := .creditPayment, referenceId := some payment.id }],
            credits := db.credits,
            schedules := db.schedules.map fun p =>
              if p.id = payment.id then { p with status := "overdue", paidAt := none }
              else p })) ∧
    (payment.amount ≤ account.balance →
      (CreditService.processPayment db now payment entryId).1 = none ∧
      (CreditService.processPayment db now payment entryId).2.accounts =
        AccountRepository.applyDelta db.accounts account.id (-payment.amount) ∧
      (CreditService.processPayment db now payment entryId).2.transactions =
        db.transactions ++
          [{ id := entryId, accountId := account.id, amount := payment.amount + 0,
             transactionType := .creditPayment, referenceId := some payment.id }]) := by
  constructor
  · intro hins
    exact processPayment_insufficient db now payment entryId credit account
      hcredit haccount hamount hins
  · intro hsuf
    have h := processPayment_sufficient db now payment entryId credit account
      hcredit haccount hnd hamount hsuf
    exact ⟨h.1, h.2.1, h.2.2.1⟩

theorem C8_settlement_penalty_frame_witness :
    ((50 : ℚ) < 100) ∧ ((0 : ℚ) < 100) ∧
    (CreditService.processPayment
      { accounts :=
          [{ id := 1, userId := 7, balance := 50, currency := "RUB" }],
        transactions := [],
        credits :=
          [{ id := 10, accountId := 1, userId := 7, amount := 1000,
             interestRate := 27, termMonths := 12, monthlyPayment := 100,
             startDate := 0, status := "active" }],
        schedules :=
          [{ id := 20, creditId := 10, paymentNumber := 1, paymentDate := 5,
             amount := 100, principal := 90, interest := 10, status := "pending",
             paidAt := none }] } 6
      { id := 20, creditId := 10, paymentNumber := 1, paymentDate := 5,
        amount := 100, principal := 90, interest := 10, status := "pending",
        paidAt := none } 77).2.accounts =
      [{ id := 1, userId := 7, balance := 50, currency := "RUB" }] := by
  have h := (C8_settlement_penalty_frame
    { accounts :=
        [{ id := 1, userId := 7, balance := 50, currency := "RUB" }],
      transactions := [],
      credits :=
        [{ id := 10, accountId := 1, userId := 7, amount := 1000,
           interestRate := 27, termMonths := 12, monthlyPayment := 100,
           startDate := 0, status := "active" }],
      schedules :=
        [{ id := 20, creditId := 10, paymentNumber := 1, paymentDate := 5,
           amount := 100, principal := 90, interest := 10, status := "pending",
           paidAt := none }] } 6
    { id := 20, creditId := 10, paymentNumber := 1, paymentDate := 5,
      amount := 100, principal := 90, interest := 10, status := "pending",
      paidAt := none } 77
    { id := 10, accountId := 1, userId := 7, amount := 1000, interestRate := 27,
      termMonths := 12, monthlyPayment := 100, startDate := 0, status := "active" }
    { id := 1, userId := 7, balance := 50, currency := "RUB" }
    (by norm_num [CreditRepository.GetCreditByID, List.find?])
    (by norm_num [AccountRepository.GetByIDForUpdate, List.find?])
    (by simp) (by norm_num)).1 (by norm_num)
  refine ⟨by norm_num, by norm_num, ?_⟩
  rw [h]

/-- C10 (amended): the manual payment entry point rejects a submitted amount
    strictly below the installment amount with a business-rule error and no
    state change; when the submitted amount is at least the installment
    amount, the submitted amount is ignored beyond that check — settlement
    debits exactly the installment amount when the balance suffices, and
    debits nothing (overdue path) when it does not. -/
theorem C10_manual_payment_amount (db : DB) (now paymentId : Nat) (amount : ℚ)
    (entryId : Nat) (payment : PaymentSchedule)
    (hpay : CreditRepository.GetPaymentByID db paymentId = some payment) :
    (amount < payment.amount →
      CreditService.ProcessPayment db now paymentId amount entryId =
        (some .amountBelowRequired, db)) ∧
    (payment.amount ≤ amount →
      ∀ (credit : Credit) (account : Account),
        CreditRepository.GetCreditByID db payment.creditId = some credit →
        AccountRepository.GetByIDForUpdate db credit.accountId = some account →
        (db.accounts.map Account.id).Nodup → 0 < payment.amount →
        ((payment.amount ≤ account.balance →
          (CreditService.ProcessPayment db now paymentId amount entryId).2.accounts =
            AccountRepository.applyDelta db.accounts account.id (-payment.amount)) ∧
         (account.balance < payment.amount →
          (CreditService.ProcessPayment db now paymentId amount entryId).2.accounts =
            db.accounts))) := by
  constructor
  · intro hlt
    simp only [CreditService.ProcessPayment, hpay, if_pos hlt]
  · intro hge credit account hcredit haccount hnd h0
    have hroute : CreditService.ProcessPayment db now paymentId amount entryId =
        CreditService.processPayment db now payment entryId := by
      simp only [CreditService.ProcessPayment, hpay, if_neg (not_lt.mpr hge)]
    constructor
    · intro hsuf
      rw [hroute]
      exact (processPayment_sufficient db now payment entryId credit account
        hcredit haccount hnd h0 hsuf).2.1
    · intro hins
      rw [hroute,
        processPayment_insufficient db now payment entryId credit account
          hcredit haccount h0 hins]

theorem C10_manual_payment_amount_witness :
    ((100 : ℚ) ≤ 150) ∧ ((50 : ℚ) < 100) ∧
    (CreditService.ProcessPayment
      { accounts :=
          [{ id := 1, userId := 7, balance := 50, currency := "RUB" }],
        transactions := [],
        credits :=
          [{ id := 10, accountId := 1, userId := 7, amount := 1000,
             interestRate := 27, termMonths := 12, monthlyPayment := 100,
             startDate := 0, status := "active" }],
        schedules :=
          [{ id := 20, creditId := 10, paymentNumber := 1, paymentDate := 5,
             amount := 100, principal := 90, interest := 10, status := "pending",
             paidAt := none }] } 6 20 150 77).2.accounts =
      [{ id := 1, userId := 7, balance := 50, currency := "RUB" }] := by
  have h := ((C10_manual_payment_amount
    { accounts :=
        [{ id := 1, userId := 7, balance := 50, currency := "RUB" }],
      transactions := [],
      credits :=
        [{ id := 10, accountId := 1, userId := 7, amount := 1000,
           interestRate := 27, termMonths := 12, monthlyPayment := 100,
           startDate := 0, status := "active" }],
      schedules :=
        [{ id := 20, creditId := 10, paymentNumber := 1, paymentDate := 5,
           amount := 100, principal := 90, interest := 10, status := "pending",
           paidAt := none }] } 6 20 150 77
    { id := 20, creditId := 10, paymentNumber := 1, paymentDate := 5,
      amount := 100, principal := 90, interest := 10, status := "pending",
      paidAt := none }
    (by norm_num [CreditRepository.GetPaymentByID, List.find?])).2
    (by norm_num)
    { id := 10, accountId := 1, userId := 7, amount := 1000, interestRate := 27,
      termMonths := 12, monthlyPayment := 100, startDate := 0, status := "active" }
    { id := 1, userId := 7, balance := 50, currency := "RUB" }
    (by norm_num [CreditRepository.GetCreditByID, List.find?])
    (by norm_num [AccountRepository.GetByIDForUpdate, List.find?])
    (by simp) (by norm_num)).2 (by norm_num)
  exact ⟨by norm_num, by norm_num, h⟩

/-- C10 counterexample: with installment amount 100, submitted amount 150 and
    balance 50, the manual payment neither fails with a business-rule error
    nor debits the scheduled amount: it returns success while marking the row
    overdue and leaving the balance at 50, so the claim that a submitted
    amount at or above the scheduled amount is always debited by exactly the
    scheduled amount is false. -/
theorem C10_counterexample :
    (CreditService.ProcessPayment
      { accounts :=
          [{ id := 1, userId := 7, balance := 50, currency := "RUB" }],
        transactions := [],
        credits :=
          [{ id := 10, accountId := 1, userId := 7, amount := 1000,
             interestRate := 27, termMonths := 12, monthlyPayment := 100,
             startDate := 0, status := "active" }],
        schedules :=
          [{ id := 20, creditId := 10, paymentNumber := 1, paymentDate := 5,
             amount := 100, principal := 90, interest := 10, status := "pending",
             paidAt := none }] } 6 20 150 77).1 = none ∧
    (CreditService.ProcessPayment
      { accounts :=
          [{ id := 1, userId := 7, balance := 50, currency := "RUB" }],
        transactions := [],
        credits :=
          [{ id := 10, accountId := 1, userId := 7, amount := 1000,
             interestRate := 27, termMonths := 12, monthlyPayment := 100,
             startDate := 0, status := "active" }],
        schedules :=
          [{ id := 20, creditId := 10, paymentNumber := 1, paymentDate := 5,
             amount := 100, principal := 90, interest := 10, status := "pending",
             paidAt := none }] } 6 20 150 77).2.accounts =
      [{ id := 1, userId := 7, balance := 50, currency := "RUB" }] := by
  constructor <;>
  norm_num [CreditService.ProcessPayment, CreditService.processPayment,
    CreditRepository.GetPaymentByID, CreditRepository.GetCreditByID,
    AccountRepository.GetByIDForUpdate, CreditRepository.UpdatePaymentStatus,
    CreditRepository.GetPaymentSchedule, CreditRepository.UpdateCreditStatus,
    AccountRepository.UpdateBalanceTx, AccountRepository.applyDelta,
    TransactionRepository.CreateTx, List.find?]

theorem foldl_CPS_schedules : ∀ (rows : List PaymentSchedule) (d : DB),
    (rows.foldl CreditRepository.CreatePaymentSchedule d).schedules =
      d.schedules ++ rows := by
  intro rows
  induction rows with
  | nil => intro d; simp
  | cons r rest ih =>
    intro d
    simp [List.foldl_cons, ih, CreditRepository.CreatePaymentSchedule]

theorem foldl_CPS_accounts : ∀ (rows : List PaymentSchedule) (d : DB),
    (rows.foldl CreditRepository.CreatePaymentSchedule d).accounts = d.accounts := by
  intro rows
  induction rows with
  | nil => intro d; rfl
  | cons r rest ih => intro d; simp [List.foldl_cons, ih, CreditRepository.CreatePaymentSchedule]

theorem foldl_CPS_credits : ∀ (rows : List PaymentSchedule) (d : DB),
    (rows.foldl CreditRepository.CreatePaymentSchedule d).credits = d.credits := by
  intro rows
  induction rows with
  | nil => intro d; rfl
  | cons r rest ih => intro d; simp [List.foldl_cons, ih, CreditRepository.CreatePaymentSchedule]

theorem foldl_CPS_transactions : ∀ (rows : List PaymentSchedule) (d : DB),
    (rows.foldl CreditRepository.CreatePaymentSchedule d).transactions = d.transactions := by
  intro rows
  induction rows with
  | nil => intro d; rfl
  | cons r rest ih => intro d; simp [List.foldl_cons, ih, CreditRepository.CreatePaymentSchedule]

/-- C3: credit issuance is not atomic.  At the failing input below every
    pre-transaction check passes, the transaction-held balance delta succeeds,
    the credit row and all 12 schedule rows are inserted through the plain
    repository connection, and then the ledger-entry insert fails; the store
    transaction rolls back the balance delta, yet the committed state keeps
    the credit row and the full schedule with no balance change and no entry. -/
theorem C3_issuance_partial_commit :
    (CreditService.CreateCredit
      { accounts :=
          [{ id := 1, userId := 7, balance := 10, currency := "RUB" }],
        transactions := [], credits := [], schedules := [] }
      { accountId := 1, amount := -5, termMonths := 12 } 7 22 0 90 100 500).1 =
      some (.repo .checkViolation) ∧
    (CreditService.CreateCredit
      { accounts :=
          [{ id := 1, userId := 7, balance := 10, currency := "RUB" }],
        transactions := [], credits := [], schedules := [] }
      { accountId := 1, amount := -5, termMonths := 12 } 7 22 0 90 100 500).2.credits.length
      = 1 ∧
    (CreditService.CreateCredit
      { accounts :=
          [{ id := 1, userId := 7, balance := 10, currency := "RUB" }],
        transactions := [], credits := [], schedules := [] }
      { accountId := 1, amount := -5, termMonths := 12 } 7 22 0 90 100 500).2.schedules.length
      = 12 ∧
    (CreditService.CreateCredit
      { accounts :=
          [{ id := 1, userId := 7, balance := 10, currency := "RUB" }],
        transactions := [], credits := [], schedules := [] }
      { accountId := 1, amount := -5, termMonths := 12 } 7 22 0 90 100 500).2.transactions
      = [] ∧
    (CreditService.CreateCredit
      { accounts :=
          [{ id := 1, userId := 7, balance := 10, currency := "RUB" }],
        transactions := [], credits := [], schedules := [] }
      { accountId := 1, amount := -5, termMonths := 12 } 7 22 0 90 100 500).2.accounts =
      [{ id := 1, userId := 7, balance := 10, currency := "RUB" }] := by
  refine ⟨?_, ?_, ?_, ?_, ?_⟩ <;>
  norm_num [CreditService.CreateCredit, AccountRepository.GetByID,
    AccountRepository.UpdateBalanceTx, AccountRepository.applyDelta,
    TransactionRepository.CreateTx, CreditRepository.CreateCredit,
    CreditService.generatePaymentSchedule, foldl_CPS_schedules, foldl_CPS_accounts,
    foldl_CPS_credits, foldl_CPS_transactions, scheduleRowsAux_length, List.find?]

/-- C9: a term of 3 months, outside the documented range of 6 to 60, is not
    rejected: no validator runs (neither the handler nor the service checks
    term_months), the store transaction opens and commits, the credit row and
    a 3-row schedule are created and the principal is credited to the
    account. -/
theorem C9_invalid_term_accepted :
    (CreditService.CreateCredit
      { accounts :=
          [{ id := 1, userId := 7, balance := 0, currency := "RUB" }],
        transactions := [], credits := [], schedules := [] }
      { accountId := 1, amount := 1000, termMonths := 3 } 7 22 0 90 100 500).1 = none ∧
    (CreditService.CreateCredit
      { accounts :=
          [{ id := 1, userId := 7, balance := 0, currency := "RUB" }],
        transactions := [], credits := [], schedules := [] }
      { accountId := 1, amount := 1000, termMonths := 3 } 7 22 0 90 100 500).2.credits.length
      = 1 ∧
    (CreditService.CreateCredit
      { accounts :=
          [{ id := 1, userId := 7, balance := 0, currency := "RUB" }],
        transactions := [], credits := [], schedules := [] }
      { accountId := 1, amount := 1000, termMonths := 3 } 7 22 0 90 100 500).2.schedules.length
      = 3 ∧
    (CreditService.CreateCredit
      { accounts :=
          [{ id := 1, userId := 7, balance := 0, currency := "RUB" }],
        transactions := [], credits := [], schedules := [] }
      { accountId := 1, amount := 1000, termMonths := 3 } 7 22 0 90 100 500).2.accounts =
      [{ id := 1, userId := 7, balance := 1000, currency := "RUB" }] := by
  refine ⟨?_, ?_, ?_, ?_⟩ <;>
  norm_num [CreditService.CreateCredit, AccountRepository.GetByID,
    AccountRepository.UpdateBalanceTx, AccountRepository.applyDelta,
    TransactionRepository.CreateTx, CreditRepository.CreateCredit,
    CreditService.generatePaymentSchedule, foldl_CPS_schedules, foldl_CPS_accounts,
    foldl_CPS_credits, foldl_CPS_transactions, scheduleRowsAux_length, List.find?]

/-- C4 counterexample: the manual payment entry point processes a schedule
    entry whose status is already paid — with the row below in status paid and
    a sufficient balance, the call debits the account again (1000 becomes
    900), so the claim that the manual path never processes a non-pending
    entry is false. -/
theorem C4_counterexample :
    CreditRepository.GetPaymentByID
      { accounts :=
          [{ id := 1, userId := 7, balance := 1000, currency := "RUB" }],
        transactions := [],
        credits :=
          [{ id := 10, accountId := 1, userId := 7, amount := 1000,
             interestRate := 27, termMonths := 12, monthlyPayment := 100,
             startDate := 0, status := "active" }],
        schedules :=
          [{ id := 20, creditId := 10, paymentNumber := 1, paymentDate := 5,
             amount := 100, principal := 90, interest := 10, status := "paid",
             paidAt := some 4 }] } 20 =
      some
        { id := 20, creditId := 10, paymentNumber := 1, paymentDate := 5,
          amount := 100, principal := 90, interest := 10, status := "paid",
          paidAt := some 4 } ∧
    (CreditService.ProcessPayment
      { accounts :=
          [{ id := 1, userId := 7, balance := 1000, currency := "RUB" }],
        transactions := [],
        credits :=
          [{ id := 10, accountId := 1, userId := 7, amount := 1000,
             interestRate := 27, termMonths := 12, monthlyPayment := 100,
             startDate := 0, status := "active" }],
        schedules :=
          [{ id := 20, creditId := 10, paymentNumber := 1, paymentDate := 5,
             amount := 100, principal := 90, interest := 10, status := "paid",
             paidAt := some 4 }] } 6 20 100 77).2.accounts =
      [{ id := 1, userId := 7, balance := 900, currency := "RUB" }] := by
  constructor <;>
  norm_num [CreditService.ProcessPayment, CreditService.processPayment,
    CreditRepository.GetPaymentByID, CreditRepository.GetCreditByID,
    AccountRepository.GetByIDForUpdate, CreditRepository.UpdatePaymentStatus,
    CreditRepository.GetPaymentSchedule, CreditRepository.UpdateCreditStatus,
    AccountRepository.UpdateBalanceTx, AccountRepository.applyDelta,
    TransactionRepository.CreateTx, List.find?]

/-- The amount a finished withdrawal in the race model has taken from the
    account: its amount if it ended in ok, zero otherwise. -/
def okDebit (p : WithdrawProc) : ℚ := if p.result = some .ok then p.amount else 0

theorem withdrawStep_invariant (s : RaceState) (i : Bool) (hpos : 0 ≤ s.balance) :
    (withdrawStep s i).p1.amount = s.p1.amount ∧
    (withdrawStep s i).p2.amount = s.p2.amount ∧
    ((withdrawStep s i).balance + okDebit (withdrawStep s i).p1 +
      okDebit (withdrawStep s i).p2 =
      s.balance + okDebit s.p1 + okDebit s.p2) ∧
    0 ≤ (withdrawStep s i).balance := by
  cases i
  all_goals
    unfold withdrawStep
    simp only [Bool.false_eq_true, if_false, if_true]
  · rcases ho : s.p2.observed with _ | obs <;> rcases hr : s.p2.result with _ | res <;>
      simp only [ho, hr]
    · simp [okDebit, hr, hpos]
    · simp [okDebit, hr, hpos]
    · split_ifs with hc1 hc2 <;> simp_all [okDebit] <;> try linarith
    · simp [okDebit, hr, hpos]
  · rcases ho : s.p1.observed with _ | obs <;> rcases hr : s.p1.result with _ | res <;>
      simp only [ho, hr]
    · simp [okDebit, hr, hpos]
    · simp [okDebit, hr, hpos]
    · split_ifs with hc1 hc2 <;> simp_all [okDebit] <;> try linarith
    · simp [okDebit, hr, hpos]

theorem withdrawRun_invariant (sched : List Bool) : ∀ s : RaceState, 0 ≤ s.balance →
    0 ≤ (withdrawRun s sched).balance ∧
    (withdrawRun s sched).p1.amount = s.p1.amount ∧
    (withdrawRun s sched).p2.amount = s.p2.amount ∧
    ((withdrawRun s sched).balance + okDebit (withdrawRun s sched).p1 +
      okDebit (withdrawRun s sched).p2 =
      s.balance + okDebit s.p1 + okDebit s.p2) := by
  induction sched with
  | nil => intro s h; exact ⟨h, rfl, rfl, rfl⟩
  | cons i rest ih =>
    intro s h
    obtain ⟨ha1, ha2, hsum, hpos⟩ := withdrawStep_invariant s i h
    obtain ⟨hpos2, hb1, hb2, hsum2⟩ := ih (withdrawStep s i) hpos
    refine ⟨hpos2, ?_, ?_, ?_⟩
    · rw [show withdrawRun s (i :: rest) = withdrawRun (withdrawStep s i) rest from rfl,
        hb1, ha1]
    · rw [show withdrawRun s (i :: rest) = withdrawRun (withdrawStep s i) rest from rfl,
        hb2, ha2]
    · rw [show withdrawRun s (i :: rest) = withdrawRun (withdrawStep s i) rest from rfl,
        hsum2, hsum]

/-- C5 (amended): Withdraw verifies the balance against the plain unlocked
    read taken before the store transaction opens, not against a locked
    in-transaction read; nevertheless, for two withdrawals racing on a balance
    sufficient for only one of them, every interleaving leaves the balance
    non-negative and lets at most one of the two succeed, because the
    store-level CHECK (balance >= 0) rejects the losing delta write. -/
theorem C5_withdraw_race_safety (a1 a2 b0 : ℚ) (sched : List Bool)
    (ha1 : 0 < a1) (ha2 : 0 < a2) (hb : 0 ≤ b0) (hlt : b0 < a1 + a2) :
    0 ≤ (withdrawRun ⟨b0, 0, ⟨a1, none, none⟩, ⟨a2, none, none⟩⟩ sched).balance ∧
    ¬((withdrawRun ⟨b0, 0, ⟨a1, none, none⟩, ⟨a2, none, none⟩⟩ sched).p1.result =
        some .ok ∧
      (withdrawRun ⟨b0, 0, ⟨a1, none, none⟩, ⟨a2, none, none⟩⟩ sched).p2.result =
        some .ok) := by
  obtain ⟨hpos, hb1, hb2, hsum⟩ :=
    withdrawRun_invariant sched ⟨b0, 0, ⟨a1, none, none⟩, ⟨a2, none, none⟩⟩ hb
  refine ⟨hpos, ?_⟩
  rintro ⟨hok1, hok2⟩
  have h1 : okDebit (withdrawRun ⟨b0, 0, ⟨a1, none, none⟩, ⟨a2, none, none⟩⟩ sched).p1 =
      a1 := by
    rw [okDebit, if_pos hok1, hb1]
  have h2 : okDebit (withdrawRun ⟨b0, 0, ⟨a1, none, none⟩, ⟨a2, none, none⟩⟩ sched).p2 =
      a2 := by
    rw [okDebit, if_pos hok2, hb2]
  rw [h1, h2] at hsum
  simp only [okDebit] at hsum
  simp at hsum
  linarith

/-- C5 counterexample: with balance 100 and two withdrawals of 100 each,
    the schedule read-read-apply-apply makes both funds checks pass against
    the stale pre-transaction reads (both observe 100); the first withdrawal
    commits and the second fails at the store delta write with a constraint
    rejection — not at the funds check.  Under the spec's locked-read
    semantics the second withdrawal instead fails the funds check with
    insufficient funds, an observably different outcome. -/
theorem C5_counterexample :
    (withdrawRun ⟨100, 0, ⟨100, none, none⟩, ⟨100, none, none⟩⟩
      [true, false, true, false]).p1.observed = some 100 ∧
    (withdrawRun ⟨100, 0, ⟨100, none, none⟩, ⟨100, none, none⟩⟩
      [true, false, true, false]).p2.observed = some 100 ∧
    (withdrawRun ⟨100, 0, ⟨100, none, none⟩, ⟨100, none, none⟩⟩
      [true, false, true, false]).p1.result = some .ok ∧
    (withdrawRun ⟨100, 0, ⟨100, none, none⟩, ⟨100, none, none⟩⟩
      [true, false, true, false]).p2.result = some .storeRejected ∧
    (withdrawRunLocked ⟨100, 0, ⟨100, none, none⟩, ⟨100, none, none⟩⟩
      [true, false]).p1.result = some .ok ∧
    (withdrawRunLocked ⟨100, 0, ⟨100, none, none⟩, ⟨100, none, none⟩⟩
      [true, false]).p2.result = some .insufficientFunds := by
  refine ⟨?_, ?_, ?_, ?_, ?_, ?_⟩ <;>
  norm_num [withdrawRun, withdrawRunLocked, withdrawStep, withdrawStepLocked,
    List.foldl]

theorem C5_withdraw_race_safety_witness :
    ((0 : ℚ) < 100) ∧ ((0 : ℚ) ≤ 100) ∧ ((100 : ℚ) < 100 + 100) ∧
    ¬((withdrawRun ⟨100, 0, ⟨100, none, none⟩, ⟨100, none, none⟩⟩
        [true, false, true, false]).p1.result = some .ok ∧
      (withdrawRun ⟨100, 0, ⟨100, none, none⟩, ⟨100, none, none⟩⟩
        [true, false, true, false]).p2.result = some .ok) := by
  refine ⟨by norm_num, by norm_num, by norm_num, ?_⟩
  exact (C5_withdraw_race_safety 100 100 100 [true, false, true, false]
    (by norm_num) (by norm_num) (by norm_num) (by norm_num)).2

/-- The store invariant: every account row carries a non-negative balance. -/
def NonNeg (db : DB) : Prop := ∀ a ∈ db.accounts, 0 ≤ a.balance

theorem NonNeg_of_accounts_eq {d d' : DB} (h : d'.accounts = d.accounts)
    (hn : NonNeg d) : NonNeg d' := by
  intro a ha
  rw [h] at ha
  exact hn a ha

theorem UpdateBalanceTx_nonneg {db db' : DB} {i : Nat} {delta : ℚ}
    (h : AccountRepository.UpdateBalanceTx db i delta = .ok db') (hn : NonNeg db) :
    NonNeg db' := by
  unfold AccountRepository.UpdateBalanceTx at h
  split at h
  · exact Except.noConfusion h
  · split at h
    · exact Except.noConfusion h
    · rename_i hex
      injection h with h
      subst h
      intro a ha
      unfold AccountRepository.applyDelta at ha
      obtain ⟨b, hb, rfl⟩ := List.mem_map.mp ha
      by_cases hid : b.id = i
      · rw [if_pos hid]
        show 0 ≤ b.balance + delta
        by_contra hneg
        push_neg at hneg
        exact hex ⟨b, hb, hid, hneg⟩
      · rw [if_neg hid]
        exact hn b hb

theorem Deposit_nonneg (db : DB) (accountId : Nat) (amount : ℚ)
    (userId entryId refId : Nat) (hn : NonNeg db) :
    NonNeg (AccountService.Deposit db accountId amount userId entryId refId).2 := by
  unfold AccountService.Deposit
  split
  · exact hn
  split
  · exact hn
  split
  · exact hn
  split
  · exact hn
  split
  · exact hn
  rename_i db1 hupd
  split
  · exact hn
  rename_i db2 hins
  exact NonNeg_of_accounts_eq (by rw [CreateTx_ok_shape _ _ _ hins])
    (UpdateBalanceTx_nonneg hupd hn)

theorem Withdraw_nonneg (db : DB) (accountId : Nat) (amount : ℚ)
    (userId entryId refId : Nat) (hn : NonNeg db) :
    NonNeg (AccountService.Withdraw db accountId amount userId entryId refId).2 := by
  unfold AccountService.Withdraw
  split
  · exact hn
  split
  · exact hn
  split
  · exact hn
  split
  · exact hn
  split
  · exact hn
  split
  · exact hn
  rename_i db1 hupd
  split
  · exact hn
  rename_i db2 hins
  exact NonNeg_of_accounts_eq (by rw [CreateTx_ok_shape _ _ _ hins])
    (UpdateBalanceTx_nonneg hupd hn)

theorem Transfer_nonneg (db : DB) (fromAccountId toAccountId : Nat) (amount : ℚ)
    (userId transferId id1 id2 : Nat) (hn : NonNeg db) :
    NonNeg (AccountService.Transfer db fromAccountId toAccountId amount userId
      transferId id1 id2).2 := by
  unfold AccountService.Transfer
  split
  · exact hn
  split
  · exact hn
  split
  · exact hn
  split
  · exact hn
  split
  · exact hn
  split
  · exact hn
  split
  · exact hn
  rename_i db1 hupd1
  split
  · exact hn
  rename_i db2 hupd2
  split
  · exact hn
  rename_i db3 hins1
  split
  · exact hn
  rename_i db4 hins2
  have h2 : NonNeg db2 := UpdateBalanceTx_nonneg hupd2 (UpdateBalanceTx_nonneg hupd1 hn)
  exact NonNeg_of_accounts_eq
    (by rw [CreateTx_ok_shape _ _ _ hins2, CreateTx_ok_shape _ _ _ hins1]) h2

theorem CreateCredit_nonneg (db : DB) (req : CreateCreditRequest) (userId : Nat)
    (rate : ℚ) (now creditId idBase entryId : Nat) (hn : NonNeg db) :
    NonNeg (CreditService.CreateCredit db req userId rate now creditId idBase
      entryId).2 := by
  unfold CreditService.CreateCredit
  split
  · exact hn
  split
  · exact hn
  split
  · exact hn
  rename_i dbBal hupd
  dsimp only
  split
  · exact NonNeg_of_accounts_eq (by rw [foldl_CPS_accounts]; rfl) hn
  rename_i dbDone hins
  exact NonNeg_of_accounts_eq
    (by rw [CreateTx_ok_shape _ _ _ hins, foldl_CPS_accounts]; rfl)
    (UpdateBalanceTx_nonneg hupd hn)

theorem processPayment_nonneg (db : DB) (now : Nat) (payment : PaymentSchedule)
    (entryId : Nat) (hn : NonNeg db) :
    NonNeg (CreditService.processPayment db now payment entryId).2 := by
  unfold CreditService.processPayment
  split
  · exact hn
  split
  · exact hn
  have hdb2 : ∀ d : DB, d.accounts = db.accounts → NonNeg d :=
    fun d hd => NonNeg_of_accounts_eq hd hn
  dsimp only
  split
  · rename_i e heq
    apply hdb2
    dsimp only
    first
    | rfl
    | split_ifs <;> rfl
  rename_i db3 heq
  have h3 : NonNeg db3 := by
    split at heq
    · exact UpdateBalanceTx_nonneg heq (hdb2 _ (by first | rfl | split_ifs <;> rfl))
    · injection heq with heq
      subst heq
      apply hdb2
      first
      | rfl
      | split_ifs <;> rfl
  split
  · rename_i e heq2
    apply hdb2
    dsimp only
    first
    | rfl
    | split_ifs <;> rfl
  rename_i db4 hins
  exact NonNeg_of_accounts_eq (by rw [CreateTx_ok_shape _ _ _ hins]) h3

theorem processList_nonneg (now : Nat) :
    ∀ (rows : List PaymentSchedule) (db : DB) (entryId : Nat), NonNeg db →
      NonNeg (CreditService.processList now db rows entryId) := by
  intro rows
  induction rows with
  | nil => intro db entryId hn; exact hn
  | cons p rest ih =>
    intro db entryId hn
    exact ih _ _ (processPayment_nonneg db now p entryId hn)

theorem ProcessPayments_nonneg (db : DB) (now entryIdBase : Nat) (hn : NonNeg db) :
    NonNeg (CreditService.ProcessPayments db now entryIdBase) :=
  processList_nonneg now _ db entryIdBase hn

theorem ProcessPayment_nonneg (db : DB) (now paymentId : Nat) (amount : ℚ)
    (entryId : Nat) (hn : NonNeg db) :
    NonNeg (CreditService.ProcessPayment db now paymentId amount entryId).2 := by
  unfold CreditService.ProcessPayment
  split
  · exact hn
  split
  · exact hn
  · exact processPayment_nonneg db now _ entryId hn

theorem applyOp_nonneg (db : DB) (op : LedgerOp) (hn : NonNeg db) :
    NonNeg (applyOp db op) := by
  cases op with
  | deposit accountId amount userId entryId refId =>
    exact Deposit_nonneg db accountId amount userId entryId refId hn
  | withdraw accountId amount userId entryId refId =>
    exact Withdraw_nonneg db accountId amount userId entryId refId hn
  | transfer fromId toId amount userId transferId id1 id2 =>
    exact Transfer_nonneg db fromId toId amount userId transferId id1 id2 hn
  | issueCredit req userId rate now creditId idBase entryId =>
    exact CreateCredit_nonneg db req userId rate now creditId idBase entryId hn
  | settle now entryIdBase =>
    exact ProcessPayments_nonneg db now entryIdBase hn
  | payManual paymentId amount now entryId =>
    exact ProcessPayment_nonneg db now paymentId amount entryId hn

/-- C2: the store-level balance-delta write fails with a constraint violation
    whenever some matched account row would go negative, and consequently any
    history of ledger operations (deposit, withdraw, transfer, credit
    issuance, scheduler settlement, manual payment) started from a store with
    non-negative balances keeps every balance non-negative. -/
theorem C2_balance_nonnegative (db : DB) (ops : List LedgerOp) (hn : NonNeg db) :
    NonNeg (runOps db ops) ∧
    (∀ (d : DB) (i : Nat) (delta : ℚ) (a : Account), a ∈ d.accounts → a.id = i →
      a.balance + delta < 0 →
      AccountRepository.UpdateBalanceTx d i delta = .error .checkViolation) := by
  constructor
  · unfold runOps
    induction ops generalizing db with
    | nil => exact hn
    | cons op rest ih => exact ih (applyOp db op) (applyOp_nonneg db op hn)
  · intro d i delta a ha hai hneg
    unfold AccountRepository.UpdateBalanceTx
    rw [if_neg (fun hall => hall a ha hai), if_pos ⟨a, ha, hai, hneg⟩]

theorem C2_balance_nonnegative_witness :
    NonNeg
      { accounts :=
          [{ id := 1, userId := 7, balance := 100, currency := "RUB" },
           { id := 2, userId := 8, balance := 0, currency := "RUB" }],
        transactions := [], credits := [], schedules := [] } ∧
    NonNeg (runOps
      { accounts :=
          [{ id := 1, userId := 7, balance := 100, currency := "RUB" },
           { id := 2, userId := 8, balance := 0, currency := "RUB" }],
        transactions := [], credits := [], schedules := [] }
      [.withdraw 1 40 7 600 601, .transfer 1 2 200 7 602 603 604,
       .deposit 2 5 8 605 606]) := by
  have hn : NonNeg
      { accounts :=
          [{ id := 1, userId := 7, balance := 100, currency := "RUB" },
           { id := 2, userId := 8, balance := 0, currency := "RUB" }],
        transactions := [], credits := [], schedules := [] } := by
    intro a ha
    simp only [List.mem_cons, List.not_mem_nil, or_false] at ha
    rcases ha with rfl | rfl <;> norm_num
  exact ⟨hn, (C2_balance_nonnegative _
    [.withdraw 1 40 7 600 601, .transfer 1 2 200 7 602 603 604,
     .deposit 2 5 8 605 606] hn).1⟩

/-- Row relation preserved on the credits table by settlement: identity and
    owning account never change. -/
def credRel (c c0 : Credit) : Prop := c.id = c0.id ∧ c.accountId = c0.accountId

/-- Row relation preserved on the payment_schedules table by settlement:
    identity and due date never change, and a row can only leave the pending
    status, never enter it. -/
def schedRel (q q0 : PaymentSchedule) : Prop :=
  q.id = q0.id ∧ q.paymentDate = q0.paymentDate ∧
    (q.status = "pending" → q0.status = "pending")

theorem forall2_mem_left {α β : Type} {r : α → β → Prop} :
    ∀ {l : List α} {l' : List β}, List.Forall₂ r l l' → ∀ a ∈ l, ∃ b ∈ l', r a b := by
  intro l l' h
  induction h with
  | nil => intro a ha; cases ha
  | cons hr _ ih =>
    intro a ha
    rcases List.mem_cons.mp ha with rfl | ha
    · exact ⟨_, List.mem_cons_self _ _, hr⟩
    · obtain ⟨b, hb, hrb⟩ := ih a ha
      exact ⟨b, List.mem_cons_of_mem _ hb, hrb⟩

theorem forall2_mem_right {α β : Type} {r : α → β → Prop} :
    ∀ {l : List α} {l' : List β}, List.Forall₂ r l l' → ∀ b ∈ l', ∃ a ∈ l, r a b := by
  intro l l' h
  induction h with
  | nil => intro b hb; cases hb
  | cons hr _ ih =>
    intro b hb
    rcases List.mem_cons.mp hb with rfl | hb
    · exact ⟨_, List.mem_cons_self _ _, hr⟩
    · obtain ⟨a, ha, hra⟩ := ih b hb
      exact ⟨a, List.mem_cons_of_mem _ ha, hra⟩

theorem forall2_trans {α : Type} {r : α → α → Prop}
    (htrans : ∀ a b c, r a b → r b c → r a c) :
    ∀ {l1 l2 l3 : List α}, List.Forall₂ r l1 l2 → List.Forall₂ r l2 l3 →
      List.Forall₂ r l1 l3 := by
  intro l1 l2 l3 h12
  induction h12 generalizing l3 with
  | nil =>
    intro h23
    cases h23
    exact List.Forall₂.nil
  | cons hr htail ih =>
    intro h23
    cases h23 with
    | cons hr2 htail2 =>
      exact List.Forall₂.cons (htrans _ _ _ hr hr2) (ih htail2)

/-- The ledger invariant settlement maintains relative to a base state:
    account ids unchanged, credit rows related by credRel, schedule rows
    related by schedRel. -/
def SettleInv (db0 d : DB) : Prop :=
  d.accounts.map Account.id = db0.accounts.map Account.id ∧
  List.Forall₂ credRel d.credits db0.credits ∧
  List.Forall₂ schedRel d.schedules db0.schedules

theorem SettleInv_refl (db0 : DB) : SettleInv db0 db0 := by
  refine ⟨rfl, ?_, ?_⟩
  · rw [List.forall₂_same]
    exact fun c _ => ⟨rfl, rfl⟩
  · rw [List.forall₂_same]
    exact fun q _ => ⟨rfl, rfl, id⟩

theorem SettleInv_trans {db0 d1 d2 : DB} (h1 : SettleInv d1 d2) (h2 : SettleInv db0 d1) :
    SettleInv db0 d2 := by
  obtain ⟨ha1, hc1, hs1⟩ := h1
  obtain ⟨ha2, hc2, hs2⟩ := h2
  refine ⟨ha1.trans ha2, ?_, ?_⟩
  · exact forall2_trans
      (fun a b c hab hbc => ⟨hab.1.trans hbc.1, hab.2.trans hbc.2⟩) hc1 hc2
  · exact forall2_trans
      (fun a b c hab hbc => ⟨hab.1.trans hbc.1, hab.2.1.trans hbc.2.1,
        fun hp => hbc.2.2 (hab.2.2 hp)⟩) hs1 hs2

theorem applyDelta_ids (l : List Account) (i : Nat) (delta : ℚ) :
    (AccountRepository.applyDelta l i delta).map Account.id = l.map Account.id := by
  unfold AccountRepository.applyDelta
  induction l with
  | nil => rfl
  | cons a rest ih =>
    simp only [List.map_cons, applyDelta_row_id, ih]

theorem credRel_refl_list (l : List Credit) : List.Forall₂ credRel l l := by
  rw [List.forall₂_same]
  exact fun c _ => ⟨rfl, rfl⟩

theorem credRel_updateCreditStatus (l : List Credit) (cid : Nat) (st : String) :
    List.Forall₂ credRel
      (l.map fun c => if c.id = cid then { c with status := st } else c) l := by
  rw [List.forall₂_map_left_iff, List.forall₂_same]
  intro c _
  by_cases h : c.id = cid
  · rw [if_pos h]
    exact ⟨rfl, rfl⟩
  · rw [if_neg h]
    exact ⟨rfl, rfl⟩

theorem processPayment_components (d : DB) (now : Nat) (p : PaymentSchedule) (e : Nat)
    (credit : Credit) (account : Account)
    (hcredit : CreditRepository.GetCreditByID d p.creditId = some credit)
    (haccount : AccountRepository.GetByIDForUpdate d credit.accountId = some account) :
    ∃ st pa, (st = "paid" ∨ st = "overdue") ∧
      (CreditService.processPayment d now p e).2.schedules =
        (d.schedules.map fun q =>
          if q.id = p.id then { q with status := st, paidAt := pa } else q) ∧
      (CreditService.processPayment d now p e).2.accounts.map Account.id =
        d.accounts.map Account.id ∧
      List.Forall₂ credRel (CreditService.processPayment d now p e).2.credits
        d.credits := by
  unfold CreditService.processPayment
  simp only [hcredit, haccount]
  by_cases hsuf : p.amount ≤ account.balance
  · refine ⟨"paid", some now, Or.inl rfl, ?_⟩
    simp only [if_pos hsuf]
    split
    · rename_i e1 heq1
      split
      · exact ⟨rfl, rfl, credRel_updateCreditStatus _ _ _⟩
      · exact ⟨rfl, rfl, credRel_refl_list _⟩
    · rename_i db3 heq1
      have h3 :
          db3.schedules =
            (d.schedules.map fun q =>
              if q.id = p.id then { q with status := "paid", paidAt := some now }
              else q) ∧
          db3.accounts.map Account.id = d.accounts.map Account.id ∧
          List.Forall₂ credRel db3.credits d.credits := by
        split at heq1
        · rename_i hall
          rw [UpdateBalanceTx_ok_shape _ _ _ _ heq1]
          refine ⟨rfl, ?_, credRel_updateCreditStatus _ _ _⟩
          rw [show ({ CreditRepository.UpdateCreditStatus
              (CreditRepository.UpdatePaymentStatus d p.id "paid" (some now))
              credit.id "paid" with
            accounts := AccountRepository.applyDelta
              (CreditRepository.UpdateCreditStatus
                (CreditRepository.UpdatePaymentStatus d p.id "paid" (some now))
                credit.id "paid").accounts account.id (-p.amount) } : DB).accounts =
            AccountRepository.applyDelta d.accounts account.id (-p.amount) from rfl]
          rw [applyDelta_ids]
        · rename_i hall
          rw [UpdateBalanceTx_ok_shape _ _ _ _ heq1]
          refine ⟨rfl, ?_, credRel_refl_list _⟩
          rw [show ({ CreditRepository.UpdatePaymentStatus d p.id "paid" (some now) with
            accounts := AccountRepository.applyDelta
              (CreditRepository.UpdatePaymentStatus d p.id "paid" (some now)).accounts
              account.id (-p.amount) } : DB).accounts =
            AccountRepository.applyDelta d.accounts account.id (-p.amount) from rfl]
          rw [applyDelta_ids]
      split
      · rename_i e2 heq2
        split
        · exact ⟨rfl, rfl, credRel_updateCreditStatus _ _ _⟩
        · exact ⟨rfl, rfl, credRel_refl_list _⟩
      · rename_i db4 heq2
        rw [CreateTx_ok_shape _ _ _ heq2]
        exact ⟨h3.1, h3.2.1, h3.2.2⟩
  · refine ⟨"overdue", none, Or.inr rfl, ?_⟩
    simp only [if_neg hsuf]
    split
    · exact ⟨rfl, rfl, credRel_refl_list _⟩
    · rename_i db4 heq2
      rw [CreateTx_ok_shape _ _ _ heq2]
      exact ⟨rfl, rfl, credRel_refl_list _⟩

theorem schedRel_updSched (l : List PaymentSchedule) (pid : Nat) (st : String)
    (pa : Option Nat) (hst : st = "paid" ∨ st = "overdue") :
    List.Forall₂ schedRel
      (l.map fun q => if q.id = pid then { q with status := st, paidAt := pa } else q)
      l := by
  rw [List.forall₂_map_left_iff, List.forall₂_same]
  intro q _
  by_cases h : q.id = pid
  · rw [if_pos h]
    refine ⟨rfl, rfl, fun hp => absurd hp ?_⟩
    show st ≠ "pending"
    rcases hst with rfl | rfl <;> simp
  · rw [if_neg h]
    exact ⟨rfl, rfl, id⟩

theorem processPayment_schedules_shape (d : DB) (now : Nat) (p : PaymentSchedule)
    (e : Nat) :
    (CreditService.processPayment d now p e).2.schedules = d.schedules ∨
    ∃ st pa, (st = "paid" ∨ st = "overdue") ∧
      (CreditService.processPayment d now p e).2.schedules =
        (d.schedules.map fun q =>
          if q.id = p.id then { q with status := st, paidAt := pa } else q) := by
  cases hcredit : CreditRepository.GetCreditByID d p.creditId with
  | none =>
    left
    unfold CreditService.processPayment
    simp only [hcredit]
  | some credit =>
    cases haccount : AccountRepository.GetByIDForUpdate d credit.accountId with
    | none =>
      left
      unfold CreditService.processPayment
      simp only [hcredit, haccount]
    | some account =>
      right
      obtain ⟨st, pa, hst, hsched, _, _⟩ :=
        processPayment_components d now p e credit account hcredit haccount
      exact ⟨st, pa, hst, hsched⟩

/-- A schedule-row id all of whose rows have left the pending status. -/
def MarkedNonPending (d : DB) (i : Nat) : Prop :=
  ∀ q ∈ d.schedules, q.id = i → q.status ≠ "pending"

theorem processPayment_preserves_marked (d : DB) (now : Nat) (p : PaymentSchedule)
    (e i : Nat) (hm : MarkedNonPending d i) :
    MarkedNonPending (CreditService.processPayment d now p e).2 i := by
  rcases processPayment_schedules_shape d now p e with h | ⟨st, pa, hst, h⟩
  · intro q hq hqi
    rw [h] at hq
    exact hm q hq hqi
  · intro q hq hqi
    rw [h] at hq
    obtain ⟨q0, hq0, rfl⟩ := List.mem_map.mp hq
    by_cases hid : q0.id = p.id
    · rw [if_pos hid]
      show st ≠ "pending"
      rcases hst with rfl | rfl <;> simp
    · rw [if_neg hid] at hqi ⊢
      exact hm q0 hq0 hqi

theorem processList_preserves_marked (now : Nat) :
    ∀ (rows : List PaymentSchedule) (d : DB) (e i : Nat), MarkedNonPending d i →
      MarkedNonPending (CreditService.processList now d rows e) i := by
  intro rows
  induction rows with
  | nil => intro d e i hm; exact hm
  | cons p rest ih =>
    intro d e i hm
    exact ih _ _ i (processPayment_preserves_marked d now p e i hm)

theorem settle_lookups (db0 d : DB) (p : PaymentSchedule)
    (hfk1 : ∀ q ∈ db0.schedules, ∃ c ∈ db0.credits, c.id = q.creditId)
    (hfk2 : ∀ c ∈ db0.credits, ∃ a ∈ db0.accounts, a.id = c.accountId)
    (hinv : SettleInv db0 d) (hp : p ∈ db0.schedules) :
    ∃ credit account, CreditRepository.GetCreditByID d p.creditId = some credit ∧
      AccountRepository.GetByIDForUpdate d credit.accountId = some account := by
  obtain ⟨hacc, hcred, hsched⟩ := hinv
  obtain ⟨c0, hc0, hc0id⟩ := hfk1 p hp
  obtain ⟨c, hc, hcrel⟩ := forall2_mem_right hcred c0 hc0
  have hfind : ∃ credit, CreditRepository.GetCreditByID d p.creditId = some credit := by
    unfold CreditRepository.GetCreditByID
    cases hf : d.credits.find? (fun x => decide (x.id = p.creditId)) with
    | none =>
      exfalso
      have hnone := List.find?_eq_none.mp hf c hc
      rw [hcrel.1, hc0id] at hnone
      simp at hnone
    | some y => exact ⟨y, rfl⟩
  obtain ⟨credit, hcredit⟩ := hfind
  have hcmem : credit ∈ d.credits := List.mem_of_find?_eq_some hcredit
  obtain ⟨c0h, hc0h, hrelh⟩ := forall2_mem_left hcred credit hcmem
  obtain ⟨a0, ha0, ha0id⟩ := hfk2 c0h hc0h
  have haid0 : a0.id ∈ d.accounts.map Account.id := by
    rw [hacc]
    exact List.mem_map_of_mem _ ha0
  obtain ⟨a, ha, haid⟩ := List.mem_map.mp haid0
  have hafind : ∃ account,
      AccountRepository.GetByIDForUpdate d credit.accountId = some account := by
    unfold AccountRepository.GetByIDForUpdate
    cases hf : d.accounts.find? (fun x => decide (x.id = credit.accountId)) with
    | none =>
      exfalso
      have hnone := List.find?_eq_none.mp hf a ha
      rw [haid, ha0id, ← hrelh.2] at hnone
      simp at hnone
    | some y => exact ⟨y, rfl⟩
  obtain ⟨account, haccount⟩ := hafind
  exact ⟨credit, account, hcredit, haccount⟩

theorem processList_settle (db0 : DB) (now : Nat)
    (hfk1 : ∀ q ∈ db0.schedules, ∃ c ∈ db0.credits, c.id = q.creditId)
    (hfk2 : ∀ c ∈ db0.credits, ∃ a ∈ db0.accounts, a.id = c.accountId) :
    ∀ (rows : List PaymentSchedule) (d : DB) (e : Nat),
      (∀ q ∈ rows, q ∈ db0.schedules) → SettleInv db0 d →
      SettleInv db0 (CreditService.processList now d rows e) ∧
      ∀ q ∈ rows, MarkedNonPending (CreditService.processList now d rows e) q.id := by
  intro rows
  induction rows with
  | nil =>
    intro d e _ hinv
    exact ⟨hinv, by intro q hq; cases hq⟩
  | cons p rest ih =>
    intro d e hsub hinv
    obtain ⟨credit, account, hcredit, haccount⟩ :=
      settle_lookups db0 d p hfk1 hfk2 hinv (hsub p (List.mem_cons_self _ _))
    obtain ⟨st, pa, hst, hsched, haccids, hcredits⟩ :=
      processPayment_components d now p e credit account hcredit haccount
    have hinv' : SettleInv db0 (CreditService.processPayment d now p e).2 :=
      SettleInv_trans
        ⟨haccids, hcredits, by rw [hsched]; exact schedRel_updSched _ _ _ _ hst⟩ hinv
    have hmark : MarkedNonPending (CreditService.processPayment d now p e).2 p.id := by
      intro q hq hqi
      rw [hsched] at hq
      obtain ⟨q0, hq0, rfl⟩ := List.mem_map.mp hq
      by_cases hid : q0.id = p.id
      · rw [if_pos hid]
        show st ≠ "pending"
        rcases hst with rfl | rfl <;> simp
      · rw [if_neg hid] at hqi
        exact absurd hqi hid
    have hrest := ih (CreditService.processPayment d now p e).2 (e + 1)
      (fun q hq => hsub q (List.mem_cons_of_mem _ hq)) hinv'
    refine ⟨hrest.1, ?_⟩
    intro q hq
    rcases List.mem_cons.mp hq with rfl | hq
    · exact processList_preserves_marked now rest _ (e + 1) q.id hmark
    · exact hrest.2 q hq

/-- C4 (amended): two settlement-scheduler runs in immediate succession over
    the same due set charge each installment at most once — the first run
    commits a paid or overdue status for every due pending row, the second
    run's pending filter therefore selects nothing, and the committed state
    after the second run equals the state after the first.  The guard lives
    only in the pending filter: the manual service entry point performs no
    status check of its own (see the counterexample). -/
theorem C4_scheduler_idempotent (db : DB) (now e1 e2 : Nat)
    (hfk1 : ∀ q ∈ db.schedules, ∃ c ∈ db.credits, c.id = q.creditId)
    (hfk2 : ∀ c ∈ db.credits, ∃ a ∈ db.accounts, a.id = c.accountId) :
    CreditService.ProcessPayments (CreditService.ProcessPayments db now e1) now e2 =
      CreditService.ProcessPayments db now e1 := by
  have hsub : ∀ q ∈ CreditRepository.GetPendingPayments db now, q ∈ db.schedules := by
    intro q hq
    exact (List.mem_filter.mp hq).1
  obtain ⟨hinv1, hmarked⟩ := processList_settle db now hfk1 hfk2
    (CreditRepository.GetPendingPayments db now) db e1 hsub (SettleInv_refl db)
  have hempty : CreditRepository.GetPendingPayments
      (CreditService.processList now db (CreditRepository.GetPendingPayments db now) e1)
      now = [] := by
    unfold CreditRepository.GetPendingPayments
    rw [List.filter_eq_nil_iff]
    intro q hq hcond
    simp only [Bool.and_eq_true, decide_eq_true_eq] at hcond
    obtain ⟨q0, hq0, hrel⟩ := forall2_mem_left hinv1.2.2 q hq
    have hq0p : q0.status = "pending" := hrel.2.2 hcond.1
    have hq0d : q0.paymentDate ≤ now := by
      rw [← hrel.2.1]
      exact hcond.2
    have hq0L : q0 ∈ CreditRepository.GetPendingPayments db now := by
      unfold CreditRepository.GetPendingPayments
      rw [List.mem_filter]
      exact ⟨hq0, by simp [hq0p, hq0d]⟩
    exact hmarked q0 hq0L q hq hrel.1 hcond.1
  show CreditService.ProcessPayments
    (CreditService.processList now db (CreditRepository.GetPendingPayments db now) e1)
    now e2 = _
  unfold CreditService.ProcessPayments
  rw [hempty]
  rfl

theorem C4_scheduler_idempotent_witness :
    (∀ q ∈
      ({ accounts :=
           [{ id := 1, userId := 7, balance := 1000, currency := "RUB" }],
         transactions := [],
         credits :=
           [{ id := 10, accountId := 1, userId := 7, amount := 1000,
              interestRate := 27, termMonths := 12, monthlyPayment := 100,
              startDate := 0, status := "active" }],
         schedules :=
           [{ id := 20, creditId := 10, paymentNumber := 1, paymentDate := 5,
              amount := 100, principal := 90, interest := 10, status := "pending",
              paidAt := none }] } : DB).schedules,
      ∃ c ∈
        ({ accounts :=
             [{ id := 1, userId := 7, balance := 1000, currency := "RUB" }],
           transactions := [],
           credits :=
             [{ id := 10, accountId := 1, userId := 7, amount := 1000,
                interestRate := 27, termMonths := 12, monthlyPayment := 100,
                startDate := 0, status := "active" }],
           schedules :=
             [{ id := 20, creditId := 10, paymentNumber := 1, paymentDate := 5,
                amount := 100, principal := 90, interest := 10, status := "pending",
                paidAt := none }] } : DB).credits, c.id = q.creditId) ∧
    CreditService.ProcessPayments (CreditService.ProcessPayments
      ({ accounts :=
           [{ id := 1, userId := 7, balance := 1000, currency := "RUB" }],
         transactions := [],
         credits :=
           [{ id := 10, accountId := 1, userId := 7, amount := 1000,
              interestRate := 27, termMonths := 12, monthlyPayment := 100,
              startDate := 0, status := "active" }],
         schedules :=
           [{ id := 20, creditId := 10, paymentNumber := 1, paymentDate := 5,
              amount := 100, principal := 90, interest := 10, status := "pending",
              paidAt := none }] } : DB) 6 1) 6 100 =
      CreditService.ProcessPayments
      ({ accounts :=
           [{ id := 1, userId := 7, balance := 1000, currency := "RUB" }],
         transactions := [],
         credits :=
           [{ id := 10, accountId := 1, userId := 7, amount := 1000,
              interestRate := 27, termMonths := 12, monthlyPayment := 100,
              startDate := 0, status := "active" }],
         schedules :=
           [{ id := 20, creditId := 10, paymentNumber := 1, paymentDate := 5,
              amount := 100, principal := 90, interest := 10, status := "pending",
              paidAt := none }] } : DB) 6 1 := by
  have h1 : ∀ q ∈
      ({ accounts :=
           [{ id := 1, userId := 7, balance := 1000, currency := "RUB" }],
         transactions := [],
         credits :=
           [{ id := 10, accountId := 1, userId := 7, amount := 1000,
              interestRate := 27, termMonths := 12, monthlyPayment := 100,
              startDate := 0, status := "active" }],
         schedules :=
           [{ id := 20, creditId := 10, paymentNumber := 1, paymentDate := 5,
              amount := 100, principal := 90, interest := 10, status := "pending",
              paidAt := none }] } : DB).schedules,
      ∃ c ∈
        ({ accounts :=
             [{ id := 1, userId := 7, balance := 1000, currency := "RUB" }],
           transactions := [],
           credits :=
             [{ id := 10, accountId := 1, userId := 7, amount := 1000,
                interestRate := 27, termMonths := 12, monthlyPayment := 100,
                startDate := 0, status := "active" }],
           schedules :=
             [{ id := 20, creditId := 10, paymentNumber := 1, paymentDate := 5,
                amount := 100, principal := 90, interest := 10, status := "pending",
                paidAt := none }] } : DB).credits, c.id = q.creditId := by
    intro q hq
    simp only [List.mem_cons, List.not_mem_nil, or_false] at hq
    subst hq
    exact ⟨_, List.mem_cons_self _ _, rfl⟩
  have h2 : ∀ c ∈
      ({ accounts :=
           [{ id := 1, userId := 7, balance := 1000, currency := "RUB" }],
         transactions := [],
         credits :=
           [{ id := 10, accountId := 1, userId := 7, amount := 1000,
              interestRate := 27, termMonths := 12, monthlyPayment := 100,
              startDate := 0, status := "active" }],
         schedules :=
           [{ id := 20, creditId := 10, paymentNumber := 1, paymentDate := 5,
              amount := 100, principal := 90, interest := 10, status := "pending",
              paidAt := none }] } : DB).credits,
      ∃ a ∈
        ({ accounts :=
             [{ id := 1, userId := 7, balance := 1000, currency := "RUB" }],
           transactions := [],
           credits :=
             [{ id := 10, accountId := 1, userId := 7, amount := 1000,
                interestRate := 27, termMonths := 12, monthlyPayment := 100,
                startDate := 0, status := "active" }],
           schedules :=
             [{ id := 20, creditId := 10, paymentNumber := 1, paymentDate := 5,
                amount := 100, principal := 90, interest := 10, status := "pending",
                paidAt := none }] } : DB).accounts, a.id = c.accountId := by
    intro c hc
    simp only [List.mem_cons, List.not_mem_nil, or_false] at hc
    subst hc
    exact ⟨_, List.mem_cons_self _ _, rfl⟩
  exact ⟨h1, C4_scheduler_idempotent _ 6 1 100 h1 h2⟩
